import Mathlib

/-!
# Verification of the dev-wizard identity-resolution subsystem

Shallow embedding of `src/runtime/runDevWizard.ts` (identity resolution,
persisted-snapshot scanning, answers-path derivation) together with proofs
of the specification's claims about it.

Modelling conventions:
* JavaScript records (`Record<string, T>`) are association lists; a lookup
  returns the first matching entry, and updates prepend so that the first
  match corresponds to the most recent `Map.set` / property write.
* Parsed JSON file contents are `JsonValue`; a file that could not be read
  or parsed is `Option.none` (mirroring the `try { readFile/JSON.parse }`
  blocks that return `undefined`).
* Thrown exceptions are `Except.error` with a `WizardError`; the two
  cancellation error classes are distinct constructors, mirroring
  `IdentityPromptCancelledError` and `PersistedAnswersStrategyCancelledError`.
* Interactive prompts consume a `PromptOracle` (the operator's responses in
  order) and record the prompts they issued in a trace; an exhausted oracle
  behaves like a cancellation keystroke.
* Filesystem paths are strings joined with `/`; `path.join` is modelled as
  `String.intercalate "/"` over components.
-/

namespace DevWizard

/-- Parsed JSON values, the shape of answer-file contents after `JSON.parse`. -/
inductive JsonValue where
  | null
  | bool (b : Bool)
  | num (n : Int)
  | str (s : String)
  | arr (items : List JsonValue)
  | obj (fields : List (String × JsonValue))
deriving Repr

/-- `isRecord` from the source: a non-null, non-array object. -/
def JsonValue.isRecord : JsonValue → Bool
  | .obj _ => true
  | _ => false

/-- Property access `value[key]` on a parsed JSON object (first binding wins,
as duplicate keys cannot survive `JSON.parse`). -/
def JsonValue.getField : JsonValue → String → Option JsonValue
  | .obj fields, key => (fields.find? (fun f => f.1 = key)).map (fun f => f.2)
  | _, _ => none

/-- `typeof value[key] === "string" ? value[key] : undefined`. -/
def JsonValue.getStr (j : JsonValue) (key : String) : Option String :=
  match j.getField key with
  | some (.str s) => some s
  | _ => none

/-- Opaque key/value metadata (`Record<string, unknown>`), e.g. a cron schedule. -/
abbrev Details := List (String × JsonValue)

/-- `{value, label?, hint?}` entries of `IdentitySegmentSpec.options`. -/
structure IdentitySegmentOption where
  value : String
  label : Option String := none
  hint : Option String := none
deriving Repr, DecidableEq

/-- One declared identity segment of a scenario
(`DevWizardScenarioIdentity["segments"][number]`). -/
structure IdentitySegmentSpec where
  id : String
  prompt : String := ""
  options : Option (List IdentitySegmentOption) := none
  allowCustom : Bool := false
  defaultValue : Option String := none
  placeholder : Option String := none
deriving Repr, DecidableEq

/-- Provenance of a resolved segment value. -/
inductive SegmentSource where
  | option
  | custom
  | cli
deriving Repr, DecidableEq

/-- `WizardIdentitySegmentSelection`. -/
structure IdentitySegmentSelection where
  id : String
  value : String
  label : String
  source : SegmentSource
  details : Option Details := none
deriving Repr

/-- `WizardIdentitySelection`. -/
structure IdentitySelection where
  slug : String
  segments : List IdentitySegmentSelection
deriving Repr

/-- `IdentitySegmentMetadata`: an out-of-band label/details override. -/
structure IdentitySegmentMetadata where
  label : Option String := none
  details : Option Details := none
deriving Repr

/-- Errors thrown during identity resolution.  The two cancellation classes
are separate constructors so that cancellation stays distinguishable from
ordinary (`fatal`) errors. -/
inductive WizardError where
  | fatal (message : String)
  | identityPromptCancelled
  | persistedAnswersStrategyCancelled
deriving Repr, DecidableEq

/-- `Record<string, string>` of per-segment value overrides. -/
abbrev OverrideMap := List (String × String)

/-- `Record<string, IdentitySegmentMetadata>`. -/
abbrev MetadataMap := List (String × IdentitySegmentMetadata)

/-- Property lookup in an association list (first binding wins). -/
def mapGet {β : Type} (m : List (String × β)) (key : String) : Option β :=
  (m.find? (fun p => p.1 = key)).map (fun p => p.2)

/-- Does `candidate` start with `needle`?  (Kernel-computable replacement for
substring tests.) -/
def startsWithChars : List Char → List Char → Bool
  | [], _ => true
  | _ :: _, [] => false
  | a :: as, b :: bs => a = b && startsWithChars as bs

/-- Does `s` end with `suffix`? -/
def stringEndsWith (s suffix : String) : Bool :=
  startsWithChars suffix.data.reverse s.data.reverse

/-- JavaScript whitespace (the ASCII portion of `\s`). -/
def isJsWhitespace (c : Char) : Bool :=
  c = ' ' || c = '\t' || c = '\n' || c = '\r' || c = '\x0b' || c = '\x0c'

/-- JavaScript `String.prototype.trim` (ASCII whitespace). -/
def jsTrim (s : String) : String :=
  String.mk (((s.data.dropWhile isJsWhitespace).reverse.dropWhile isJsWhitespace).reverse)

/-- `String.prototype.split` with a single-character separator. -/
def splitOnCharAux (sep : Char) : List Char → List Char → List String
  | [], acc => [String.mk acc.reverse]
  | c :: rest, acc =>
    if c = sep then String.mk acc.reverse :: splitOnCharAux sep rest []
    else splitOnCharAux sep rest (c :: acc)

/-- `s.split(sep)` for a one-character separator. -/
def splitOnChar (sep : Char) (s : String) : List String :=
  splitOnCharAux sep s.data []

/-- `provided?.[id]` combined with the `if (overrideValue)` truthiness test:
an empty-string override behaves like an absent one. -/
def truthyGet (m : OverrideMap) (key : String) : Option String :=
  match mapGet m key with
  | some v => if v = "" then none else some v
  | none => none

/-- Truthiness of an optional string (`if (x)`). -/
def truthyString : Option String → Option String
  | some v => if v = "" then none else some v
  | none => none

/-- The `/`-join of the resolved segment values, as recomputed by every
in-memory selection constructor. -/
def joinSlug (segments : List IdentitySegmentSelection) : String :=
  String.intercalate "/" (segments.map (fun s => s.value))

/-- The tail of `buildWizardIdentitySegmentSelection`: apply a metadata
override's label/details on top of a built selection (`if (metadataOverride)
{ ... }`).  `applyIdentityMetadataOverrides` performs the same mutation. -/
def applyMetadataToSegment (sel : IdentitySegmentSelection)
    (m : Option IdentitySegmentMetadata) : IdentitySegmentSelection :=
  match m with
  | none => sel
  | some md =>
    let withLabel :=
      match md.label with
      | some l => { sel with label := l }
      | none => sel
    match md.details with
    | some d => { withLabel with details := some d }
    | none => withLabel

/-- `buildWizardIdentitySegmentSelection`: build one segment selection from a
concrete value; fails (`InvalidCustomValue`) when the value is not a listed
option and neither `allowCustom` nor `acceptUnlistedValues` holds. -/
def buildWizardIdentitySegmentSelection (segment : IdentitySegmentSpec)
    (value : String) (source : SegmentSource)
    (metadataOverride : Option IdentitySegmentMetadata)
    (acceptUnlistedValues : Bool) :
    Except WizardError IdentitySegmentSelection :=
  let opt := (segment.options.getD []).find? (fun c => c.value = value)
  let base : Option IdentitySegmentSelection :=
    match opt with
    | some o => some { id := segment.id, value := o.value, label := o.label.getD o.value, source }
    | none =>
      if segment.allowCustom || acceptUnlistedValues then
        some { id := segment.id, value := value, label := value, source }
      else
        none
  match base with
  | some sel => .ok (applyMetadataToSegment sel metadataOverride)
  | none =>
    .error (.fatal ("Identity segment \"" ++ segment.id ++
      "\" does not allow custom values. Valid options: " ++
      (match segment.options with
       | some opts => String.intercalate ", " (opts.map (fun e => e.value))
       | none => "n/a") ++ "."))

/-- The fallback map built by `buildIdentitySelectionFromSources` from the
fallback snapshot (`Map.set` per segment: a later duplicate id overwrites). -/
def fallbackMapOf (fallback : Option IdentitySelection) : List (String × IdentitySegmentSelection) :=
  match fallback with
  | none => []
  | some fb => fb.segments.foldl (fun m e => (e.id, e) :: m) []

/-- Result shape of `buildIdentitySelectionFromSources`. -/
structure IdentityBuildResult where
  selection : Option IdentitySelection
  missingSegmentIds : List String
deriving Repr

/-- The per-segment loop of `buildIdentitySelectionFromSources`, returning the
assembled selections and the missing ids in declared order. -/
def buildIdentityLoop (provided : OverrideMap) (providedMetadata : MetadataMap)
    (fbMap : List (String × IdentitySegmentSelection)) :
    List IdentitySegmentSpec →
    Except WizardError (List IdentitySegmentSelection × List String)
  | [] => .ok ([], [])
  | segment :: rest =>
    match truthyGet provided segment.id with
    | some v =>
      match buildWizardIdentitySegmentSelection segment v .cli
          (mapGet providedMetadata segment.id) false with
      | .error e => .error e
      | .ok sel =>
        match buildIdentityLoop provided providedMetadata fbMap rest with
        | .error e => .error e
        | .ok (sels, missing) => .ok (sel :: sels, missing)
    | none =>
      match mapGet fbMap segment.id with
      | some entry =>
        match buildIdentityLoop provided providedMetadata fbMap rest with
        | .error e => .error e
        | .ok (sels, missing) => .ok (entry :: sels, missing)
      | none =>
        match buildIdentityLoop provided providedMetadata fbMap rest with
        | .error e => .error e
        | .ok (sels, missing) => .ok (sels, segment.id :: missing)

/-- `buildIdentitySelectionFromSources`: pure combination of declared
segments, explicit overrides, metadata overrides and a fallback snapshot. -/
def buildIdentitySelectionFromSources (segments : List IdentitySegmentSpec)
    (provided : OverrideMap) (providedMetadata : MetadataMap)
    (fallback : Option IdentitySelection) :
    Except WizardError IdentityBuildResult :=
  match buildIdentityLoop provided providedMetadata (fallbackMapOf fallback) segments with
  | .error e => .error e
  | .ok (sels, missing) =>
    if missing.isEmpty then
      .ok { selection := some { slug := joinSlug sels, segments := sels },
            missingSegmentIds := [] }
    else
      .ok { selection := none, missingSegmentIds := missing }

/-- `applyIdentityMetadataOverrides`: metadata overrides win over whatever
source produced the value.  (Defined in the source but never called.) -/
def applyIdentityMetadataOverrides (selection : IdentitySelection)
    (metadataOverrides : Option MetadataMap) : IdentitySelection :=
  match metadataOverrides with
  | none => selection
  | some overrides =>
    { slug := selection.slug,
      segments := selection.segments.map (fun segment =>
        match mapGet overrides segment.id with
        | none => segment
        | some ov => applyMetadataToSegment segment (some ov)) }

/-! ## Claim-side vocabulary for the selection builder -/

/-- The selection `buildWizardIdentitySegmentSelection` produces when the value
is accepted: a listed option's value/label, or the raw value for an accepted
unlisted value. -/
def acceptedSegmentSelection (segment : IdentitySegmentSpec) (value : String)
    (source : SegmentSource) : IdentitySegmentSelection :=
  match (segment.options.getD []).find? (fun c => c.value = value) with
  | some o => { id := segment.id, value := o.value, label := o.label.getD o.value, source }
  | none => { id := segment.id, value := value, label := value, source }

/-- A value is acceptable for a segment when it matches a listed option or the
segment allows custom values. -/
def acceptsValue (segment : IdentitySegmentSpec) (value : String) : Bool :=
  ((segment.options.getD []).find? (fun c => c.value = value)).isSome || segment.allowCustom

/-- Every non-empty explicit override value is acceptable for its segment. -/
def overridesAccepted (segments : List IdentitySegmentSpec) (provided : OverrideMap) : Bool :=
  segments.all (fun s =>
    match truthyGet provided s.id with
    | some v => acceptsValue s v
    | none => true)

/-- A declared segment is covered when a non-empty explicit override value
exists for it or the fallback snapshot has a segment with a matching id. -/
def segmentCovered (provided : OverrideMap) (fallback : Option IdentitySelection)
    (segment : IdentitySegmentSpec) : Bool :=
  (truthyGet provided segment.id).isSome ||
    (mapGet (fallbackMapOf fallback) segment.id).isSome

/-- Claim-side description of the resolved segment: an override value yields a
`"cli"`-sourced selection (metadata override applied), otherwise the matching
fallback segment is copied verbatim.  (The default is never reached for a
covered segment.) -/
def claimResolvedSegment (provided : OverrideMap) (providedMetadata : MetadataMap)
    (fallback : Option IdentitySelection) (segment : IdentitySegmentSpec) :
    IdentitySegmentSelection :=
  match truthyGet provided segment.id with
  | some v =>
    applyMetadataToSegment (acceptedSegmentSelection segment v .cli)
      (mapGet providedMetadata segment.id)
  | none =>
    (mapGet (fallbackMapOf fallback) segment.id).getD
      { id := segment.id, value := "", label := "", source := .cli }

lemma applyMetadataToSegment_id (sel : IdentitySegmentSelection)
    (m : Option IdentitySegmentMetadata) :
    (applyMetadataToSegment sel m).id = sel.id := by
  cases m with
  | none => rfl
  | some md =>
    simp only [applyMetadataToSegment]
    cases md.label <;> cases md.details <;> rfl

lemma acceptedSegmentSelection_id (segment : IdentitySegmentSpec) (value : String)
    (source : SegmentSource) :
    (acceptedSegmentSelection segment value source).id = segment.id := by
  unfold acceptedSegmentSelection
  cases (segment.options.getD []).find? (fun c => c.value = value) <;> rfl

lemma fallbackMapOf_entry_id (fallback : Option IdentitySelection) :
    ∀ p ∈ fallbackMapOf fallback, p.2.id = p.1 := by
  cases fallback with
  | none => intro p hp; simp [fallbackMapOf] at hp
  | some fb =>
    suffices h : ∀ (l : List IdentitySegmentSelection)
        (init : List (String × IdentitySegmentSelection)),
        (∀ p ∈ init, p.2.id = p.1) →
        ∀ p ∈ l.foldl (fun m e => (e.id, e) :: m) init, p.2.id = p.1 by
      intro p hp
      exact h fb.segments [] (by simp) p hp
    intro l
    induction l with
    | nil => intro init hinit p hp; exact hinit p hp
    | cons e rest ih =>
      intro init hinit p hp
      refine ih ((e.id, e) :: init) ?_ p hp
      intro q hq
      rcases List.mem_cons.mp hq with h | h
      · subst h; rfl
      · exact hinit q h

lemma mapGet_fallback_id (fallback : Option IdentitySelection) (key : String)
    (entry : IdentitySegmentSelection)
    (h : mapGet (fallbackMapOf fallback) key = some entry) : entry.id = key := by
  unfold mapGet at h
  cases hf : (fallbackMapOf fallback).find? (fun p => p.1 = key) with
  | none => rw [hf] at h; simp at h
  | some p =>
    rw [hf] at h
    simp at h
    have hmem := List.mem_of_find?_eq_some hf
    have hkey := List.find?_some hf
    simp at hkey
    have := fallbackMapOf_entry_id fallback p hmem
    rw [← h, this, hkey]

lemma claimResolvedSegment_id (provided : OverrideMap) (providedMetadata : MetadataMap)
    (fallback : Option IdentitySelection) (segment : IdentitySegmentSpec) :
    (claimResolvedSegment provided providedMetadata fallback segment).id = segment.id := by
  unfold claimResolvedSegment
  cases truthyGet provided segment.id with
  | some v => rw [applyMetadataToSegment_id, acceptedSegmentSelection_id]
  | none =>
    cases hf : mapGet (fallbackMapOf fallback) segment.id with
    | none => rfl
    | some entry => simpa using mapGet_fallback_id fallback segment.id entry hf

lemma buildSegment_of_accepted (segment : IdentitySegmentSpec) (value : String)
    (source : SegmentSource) (md : Option IdentitySegmentMetadata)
    (h : acceptsValue segment value = true) :
    buildWizardIdentitySegmentSelection segment value source md false =
      .ok (applyMetadataToSegment (acceptedSegmentSelection segment value source) md) := by
  unfold buildWizardIdentitySegmentSelection acceptedSegmentSelection
  unfold acceptsValue at h
  cases hf : (segment.options.getD []).find? (fun c => c.value = value) with
  | some o => simp [hf]
  | none =>
    rw [hf] at h
    simp at h
    simp [hf, h]

lemma buildSegment_accept_unlisted (segment : IdentitySegmentSpec) (value : String)
    (source : SegmentSource) (md : Option IdentitySegmentMetadata) :
    buildWizardIdentitySegmentSelection segment value source md true =
      .ok (applyMetadataToSegment (acceptedSegmentSelection segment value source) md) := by
  unfold buildWizardIdentitySegmentSelection acceptedSegmentSelection
  cases hf : (segment.options.getD []).find? (fun c => c.value = value) with
  | some o => simp [hf]
  | none => simp [hf]

lemma buildIdentityLoop_spec (provided : OverrideMap) (pmeta : MetadataMap)
    (fallback : Option IdentitySelection) :
    ∀ segments : List IdentitySegmentSpec,
      overridesAccepted segments provided = true →
      buildIdentityLoop provided pmeta (fallbackMapOf fallback) segments =
        .ok ((segments.filter (segmentCovered provided fallback)).map
               (claimResolvedSegment provided pmeta fallback),
             (segments.filter (fun s => !(segmentCovered provided fallback s))).map
               (fun s => s.id)) := by
  intro segments
  induction segments with
  | nil => intro _; rfl
  | cons segment rest ih =>
    intro hacc
    rw [overridesAccepted, List.all_cons] at hacc
    have hhead := (Bool.and_eq_true _ _).mp hacc |>.1
    have hrest : overridesAccepted rest provided = true :=
      (Bool.and_eq_true _ _).mp hacc |>.2
    unfold buildIdentityLoop
    cases hov : truthyGet provided segment.id with
    | some v =>
      have hhead' : acceptsValue segment v = true := by
        rw [hov] at hhead
        simpa using hhead
      dsimp only
      rw [buildSegment_of_accepted segment v .cli (mapGet pmeta segment.id) hhead']
      rw [ih hrest]
      have hcov : segmentCovered provided fallback segment = true := by
        unfold segmentCovered
        rw [hov]
        simp
      simp [List.filter_cons, hcov, claimResolvedSegment, hov]
    | none =>
      cases hf : mapGet (fallbackMapOf fallback) segment.id with
      | some entry =>
        rw [ih hrest]
        have hcov : segmentCovered provided fallback segment = true := by
          unfold segmentCovered
          rw [hov, hf]
          simp
        simp [List.filter_cons, hcov, claimResolvedSegment, hov, hf]
      | none =>
        rw [ih hrest]
        have hcov : segmentCovered provided fallback segment = false := by
          unfold segmentCovered
          rw [hov, hf]
          simp
        simp [List.filter_cons, hcov]

/-- **C1 (amended).** For declared segments, overrides, metadata overrides and
an optional fallback — provided every non-empty override value is acceptable
for its segment (a listed option value, or any value when the segment allows
custom values; otherwise `buildWizardIdentitySegmentSelection` fails with an
`InvalidCustomValue` error instead of returning a result) — the builder
satisfies: when every declared segment is covered by a non-empty explicit
override value or a matching fallback segment, it returns a selection whose
segments appear in declared order (override-sourced segments built with source
`"cli"`, fallback segments copied verbatim) and whose slug is the `/`-join of
the resolved segment values, with empty `missingSegmentIds`; when at least one
declared segment is covered by neither, it returns no selection and
`missingSegmentIds` lists exactly the uncovered ids, in declared order. -/
theorem buildIdentitySelectionFromSources_spec
    (segments : List IdentitySegmentSpec) (provided : OverrideMap)
    (providedMetadata : MetadataMap) (fallback : Option IdentitySelection)
    (hacc : overridesAccepted segments provided = true) :
    (segments.all (segmentCovered provided fallback) = true →
      buildIdentitySelectionFromSources segments provided providedMetadata fallback =
        .ok { selection := some
                { slug := String.intercalate "/"
                    ((segments.map (claimResolvedSegment provided providedMetadata fallback)).map
                      (fun s => s.value)),
                  segments := segments.map (claimResolvedSegment provided providedMetadata fallback) },
              missingSegmentIds := [] } ∧
      (segments.map (claimResolvedSegment provided providedMetadata fallback)).map (fun s => s.id)
        = segments.map (fun s => s.id)) ∧
    (segments.all (segmentCovered provided fallback) = false →
      buildIdentitySelectionFromSources segments provided providedMetadata fallback =
        .ok { selection := none,
              missingSegmentIds :=
                (segments.filter (fun s => !(segmentCovered provided fallback s))).map
                  (fun s => s.id) }) := by
  have hloop := buildIdentityLoop_spec provided providedMetadata fallback segments hacc
  constructor
  · intro hall
    have hfilter : segments.filter (segmentCovered provided fallback) = segments :=
      List.filter_eq_self.mpr (fun a ha => List.all_eq_true.mp hall a ha)
    have hnone : segments.filter (fun s => !(segmentCovered provided fallback s)) = [] := by
      rw [List.filter_eq_nil_iff]
      intro a ha
      simp [List.all_eq_true.mp hall a ha]
    constructor
    · unfold buildIdentitySelectionFromSources
      rw [hloop, hfilter, hnone]
      simp [joinSlug]
    · simp [claimResolvedSegment_id]
  · intro hnotall
    have hne : segments.filter (fun s => !(segmentCovered provided fallback s)) ≠ [] := by
      intro hempty
      rw [List.filter_eq_nil_iff] at hempty
      have hall : segments.all (segmentCovered provided fallback) = true :=
        List.all_eq_true.mpr (fun a ha => by simpa using hempty a ha)
      rw [hall] at hnotall
      simp at hnotall
    unfold buildIdentitySelectionFromSources
    rw [hloop]
    have : (((segments.filter (fun s => !(segmentCovered provided fallback s))).map
        (fun s => s.id)).isEmpty) = false := by
      cases hcase : segments.filter (fun s => !(segmentCovered provided fallback s)) with
      | nil => exact absurd hcase hne
      | cons a l => simp [hcase]
    simp [this]

/-- Segment used by the C1 counterexample: options without `allowCustom`. -/
def c1Segment : IdentitySegmentSpec :=
  { id := "category", prompt := "Select a category",
    options := some [{ value := "maintenance" }] }

/-- **C1 counterexample.** With one declared segment `category` (options
`[maintenance]`, custom values not allowed) and the explicit override
`category := "upgrade"`, every declared segment id is covered by an explicit
override value, yet `buildIdentitySelectionFromSources` does not return a
selection with empty `missingSegmentIds` — it throws the `InvalidCustomValue`
error, refuting the claim as stated. -/
theorem c1_counterexample :
    (truthyGet [("category", "upgrade")] c1Segment.id).isSome = true ∧
    buildIdentitySelectionFromSources [c1Segment] [("category", "upgrade")] [] none =
      .error (.fatal "Identity segment \"category\" does not allow custom values. Valid options: maintenance.") :=
  ⟨rfl, rfl⟩

/-- Concrete segments for the C1 witness. -/
def c1wSegments : List IdentitySegmentSpec :=
  [ { id := "category", prompt := "Select a category",
      options := some [{ value := "maintenance", label := some "Maintenance" }] },
    { id := "cadence", prompt := "Select cadence", allowCustom := true } ]

/-- Fallback snapshot for the C1 witness (covers `cadence`). -/
def c1wFallback : IdentitySelection :=
  { slug := "maintenance/daily",
    segments := [ { id := "category", value := "maintenance", label := "Maintenance", source := .cli },
                  { id := "cadence", value := "daily", label := "Daily", source := .cli } ] }

/-- Witness for the amended C1 theorem at a concrete input. -/
theorem buildIdentitySelectionFromSources_spec_witness :
    overridesAccepted c1wSegments [("category", "maintenance")] = true ∧
    c1wSegments.all (segmentCovered [("category", "maintenance")] (some c1wFallback)) = true ∧
    buildIdentitySelectionFromSources c1wSegments [("category", "maintenance")] []
        (some c1wFallback) =
      .ok { selection := some
              { slug := String.intercalate "/"
                  ((c1wSegments.map (claimResolvedSegment [("category", "maintenance")] []
                    (some c1wFallback))).map (fun s => s.value)),
                segments := c1wSegments.map (claimResolvedSegment [("category", "maintenance")] []
                  (some c1wFallback)) },
            missingSegmentIds := [] } :=
  ⟨rfl, rfl,
    ((buildIdentitySelectionFromSources_spec c1wSegments [("category", "maintenance")] []
      (some c1wFallback) rfl).1 rfl).1⟩

/-- Segment used by the C3 theorem. -/
def c3Segment : IdentitySegmentSpec :=
  { id := "cadence", prompt := "Select cadence",
    options := some [{ value := "daily", label := some "Daily" }] }

/-- Metadata override used by the C3 theorem. -/
def c3Metadata : MetadataMap :=
  [("cadence", { label := some "custom cadence (0 2 * * * @ UTC)" })]

/-- Fallback snapshot used by the C3 theorem. -/
def c3Fallback : IdentitySelection :=
  { slug := "daily",
    segments := [{ id := "cadence", value := "daily", label := "Daily", source := .cli }] }

/-- **C3 (code bug).** With no explicit value override for `cadence`, a
metadata override carrying a new label, and a fallback snapshot supplying the
value: `buildIdentitySelectionFromSources` copies the fallback segment with
its old label `"Daily"`, ignoring the metadata override — while the (never
called) `applyIdentityMetadataOverrides` would have applied the overridden
label, as the specification requires. -/
theorem metadataOverride_ignored_on_fallback_segment :
    buildIdentitySelectionFromSources [c3Segment] [] c3Metadata (some c3Fallback) =
      .ok { selection := some
              { slug := "daily",
                segments := [{ id := "cadence", value := "daily", label := "Daily", source := .cli }] },
            missingSegmentIds := [] } ∧
    (applyIdentityMetadataOverrides
        { slug := "daily",
          segments := [{ id := "cadence", value := "daily", label := "Daily", source := .cli }] }
        (some c3Metadata)).segments
      = [{ id := "cadence", value := "daily",
           label := "custom cadence (0 2 * * * @ UTC)", source := .cli }] :=
  ⟨rfl, rfl⟩

/-! ## Persisted snapshot scanning

The filesystem subtree below the scenario answers directory
(`repoRoot/.dev-wizard/answers/<sanitized scenarioId>/`) is modelled as a
tree of entries.  A file's content is the result of `readFile` + `JSON.parse`
(`none` when either failed, mirroring the `try` blocks that skip the file).
A missing or non-directory scenario answers directory (`ENOENT`/`ENOTDIR` from
`readdir`) is modelled as the whole tree being `none`. -/

/-- A directory entry below the scenario answers directory. -/
inductive FsEntry where
  | file (name : String) (content : Option JsonValue)
  | dir (name : String) (entries : List FsEntry)

/-- `collectIdentityAnswerFiles`: depth-first traversal collecting every
`*.json` file's parsed content, in traversal order. -/
def collectIdentityAnswerFiles : List FsEntry → List (Option JsonValue)
  | [] => []
  | .dir _ entries :: rest =>
    collectIdentityAnswerFiles entries ++ collectIdentityAnswerFiles rest
  | .file name content :: rest =>
    if stringEndsWith name ".json" then content :: collectIdentityAnswerFiles rest
    else collectIdentityAnswerFiles rest

/-- The `meta.identity` object of a parsed answer file, when `parsed`,
`parsed.meta` and `parsed.meta.identity` are all records. -/
def snapshotIdentityObj (parsed : JsonValue) : Option JsonValue :=
  if parsed.isRecord then
    match parsed.getField "meta" with
    | some m =>
      if m.isRecord then
        match m.getField "identity" with
        | some i => if i.isRecord then some i else none
        | none => none
      else none
    | none => none
  else none

/-- The stored `meta.identity.slug` string of a parsed answer file. -/
def snapshotStoredSlug (parsed : JsonValue) : Option String :=
  (snapshotIdentityObj parsed).bind (fun identity => identity.getStr "slug")

/-- The stored `meta.identity.segments` array of a parsed answer file. -/
def snapshotStoredSegments (parsed : JsonValue) : Option (List JsonValue) :=
  match snapshotIdentityObj parsed with
  | some identity =>
    match identity.getField "segments" with
    | some (.arr items) => some items
    | _ => none
  | none => none

/-- The per-index loop of `readIdentitySelectionSnapshot`: every stored entry
must be an object with a string `value`; a missing string `id` falls back to
the declared segment id at that position (or `segment-<index+1>`). -/
def readSnapshotSegLoop (expectedSegments : List IdentitySegmentSpec) :
    Nat → List JsonValue → Option (List IdentitySegmentSelection)
  | _, [] => some []
  | index, stored :: rest =>
    if stored.isRecord then
      match stored.getStr "value" with
      | some value =>
        let id :=
          match stored.getStr "id" with
          | some s => s
          | none =>
            match expectedSegments[index]? with
            | some spec => spec.id
            | none => "segment-" ++ toString (index + 1)
        let label := (stored.getStr "label").getD value
        let details : Option Details :=
          match stored.getField "details" with
          | some (.obj fields) => some fields
          | _ => none
        match readSnapshotSegLoop expectedSegments (index + 1) rest with
        | some sels =>
          some ({ id := id, value := value, label := label,
                  source := .cli, details := details } :: sels)
        | none => none
      | none => none
    else none

/-- `readIdentitySelectionSnapshot`: recover a selection from one answer
file's parsed content; any shape mismatch yields `none` (the file is
skipped).  The stored `source` is not persisted, so every segment reads back
with source `"cli"`. -/
def readIdentitySelectionSnapshot (content : Option JsonValue)
    (expectedSegments : List IdentitySegmentSpec) : Option IdentitySelection :=
  match content with
  | none => none
  | some parsed =>
    match snapshotIdentityObj parsed with
    | none => none
    | some identity =>
      match identity.getStr "slug", identity.getField "segments" with
      | some slug, some (.arr storedSegments) =>
        if slug = "" then none
        else if storedSegments.length ≠ expectedSegments.length then none
        else
          match readSnapshotSegLoop expectedSegments 0 storedSegments with
          | some sels => some { slug := slug, segments := sels }
          | none => none
      | _, _ => none

/-- Deduplication by slug, keeping the first occurrence in traversal order
(the `Map` keyed by slug in `collectPersistedIdentitySelections`). -/
def dedupeBySlug (seen : List String) : List IdentitySelection → List IdentitySelection
  | [] => []
  | sel :: rest =>
    if seen.contains sel.slug then dedupeBySlug seen rest
    else sel :: dedupeBySlug (sel.slug :: seen) rest

/-- `collectPersistedIdentitySelections`: scan the (possibly missing)
scenario answers directory for previously persisted identity selections. -/
def collectPersistedIdentitySelections (answersTree : Option (List FsEntry))
    (segments : List IdentitySegmentSpec) : List IdentitySelection :=
  if segments.isEmpty then []
  else
    let files :=
      match answersTree with
      | none => []
      | some entries => collectIdentityAnswerFiles entries
    dedupeBySlug []
      (files.filterMap (fun content => readIdentitySelectionSnapshot content segments))

/-- Claim-side shape requirement on a parsed answer file: an object with a
`meta.identity` object containing a string `slug` and a `segments` array of
the expected length whose entries are objects with a string `value`. -/
def snapshotShapeOk (parsed : JsonValue) (expectedLen : Nat) : Bool :=
  parsed.isRecord &&
  (match snapshotIdentityObj parsed with
   | none => false
   | some identity =>
     (identity.getStr "slug").isSome &&
     (match identity.getField "segments" with
      | some (.arr items) =>
        items.length = expectedLen &&
        items.all (fun e => e.isRecord && (e.getStr "value").isSome)
      | _ => false))

lemma readSnapshotSegLoop_entries_ok (specs : List IdentitySegmentSpec) :
    ∀ (stored : List JsonValue) (index : Nat) (sels : List IdentitySegmentSelection),
      readSnapshotSegLoop specs index stored = some sels →
      ∀ e ∈ stored, e.isRecord = true ∧ (e.getStr "value").isSome = true := by
  intro stored
  induction stored with
  | nil => intro index sels _ e he; simp at he
  | cons entry rest ih =>
    intro index sels h e he
    rw [readSnapshotSegLoop] at h
    by_cases hrec : entry.isRecord = true
    · rw [if_pos hrec] at h
      cases hval : entry.getStr "value" with
      | none => rw [hval] at h; simp at h
      | some value =>
        rw [hval] at h
        dsimp only at h
        cases hrest : readSnapshotSegLoop specs (index + 1) rest with
        | none => rw [hrest] at h; simp at h
        | some sels' =>
          rcases List.mem_cons.mp he with h' | h'
          · subst h'; exact ⟨hrec, by rw [hval]; rfl⟩
          · exact ih (index + 1) sels' hrest e h'
    · rw [if_neg hrec] at h; simp at h

lemma readSnapshot_shape (parsed : JsonValue) (specs : List IdentitySegmentSpec)
    (sel : IdentitySelection)
    (h : readIdentitySelectionSnapshot (some parsed) specs = some sel) :
    snapshotShapeOk parsed specs.length = true := by
  rw [readIdentitySelectionSnapshot] at h
  cases hid : snapshotIdentityObj parsed with
  | none => rw [hid] at h; simp at h
  | some identity =>
    rw [hid] at h
    dsimp only at h
    have hrec : parsed.isRecord = true := by
      by_contra hn
      rw [snapshotIdentityObj] at hid
      simp [Bool.not_eq_true] at hn
      rw [if_neg (by simp [hn])] at hid
      exact Option.noConfusion hid
    cases hslug : identity.getStr "slug" with
    | none => rw [hslug] at h; simp at h
    | some slug =>
      rw [hslug] at h
      cases hsegf : identity.getField "segments" with
      | none => rw [hsegf] at h; simp at h
      | some segval =>
        rw [hsegf] at h
        cases segval with
        | arr items =>
          dsimp only at h
          by_cases hempty : slug = ""
          · rw [if_pos hempty] at h; exact absurd h (by simp)
          · rw [if_neg hempty] at h
            by_cases hlen : items.length = specs.length
            · rw [if_neg (by simpa using hlen)] at h
              cases hloop : readSnapshotSegLoop specs 0 items with
              | none => rw [hloop] at h; simp at h
              | some sels =>
                have hall := readSnapshotSegLoop_entries_ok specs items 0 sels hloop
                rw [snapshotShapeOk, hid, hrec]
                dsimp only
                rw [hslug, hsegf]
                dsimp only
                simp only [Option.isSome_some, Bool.true_and]
                refine (Bool.and_eq_true _ _).mpr ⟨by simpa using hlen, ?_⟩
                rw [List.all_eq_true]
                intro e he
                have := hall e he
                simp [this.1, this.2]
            · rw [if_pos (by simpa using hlen)] at h; exact absurd h (by simp)
        | null => simp at h
        | bool b => simp at h
        | num n => simp at h
        | str s => simp at h
        | obj fields => simp at h

lemma dedupeBySlug_sublist (l : List IdentitySelection) :
    ∀ seen, (dedupeBySlug seen l).Sublist l := by
  induction l with
  | nil => intro seen; simp [dedupeBySlug]
  | cons sel rest ih =>
    intro seen
    rw [dedupeBySlug]
    by_cases h : seen.contains sel.slug
    · rw [if_pos h]
      exact (ih seen).trans (List.sublist_cons_self sel rest)
    · rw [if_neg h]
      exact (ih (sel.slug :: seen)).cons₂ sel

lemma dedupeBySlug_not_seen (l : List IdentitySelection) :
    ∀ seen sel, sel ∈ dedupeBySlug seen l → sel.slug ∉ seen := by
  induction l with
  | nil => intro seen sel h; simp [dedupeBySlug] at h
  | cons head rest ih =>
    intro seen sel h
    rw [dedupeBySlug] at h
    by_cases hc : seen.contains head.slug
    · rw [if_pos hc] at h
      exact ih seen sel h
    · rw [if_neg hc] at h
      rcases List.mem_cons.mp h with h' | h'
      · subst h'
        simpa using hc
      · have := ih (head.slug :: seen) sel h'
        intro hmem
        exact this (List.mem_cons_of_mem _ hmem)

lemma dedupeBySlug_nodup (l : List IdentitySelection) :
    ∀ seen, ((dedupeBySlug seen l).map (fun s => s.slug)).Nodup := by
  induction l with
  | nil => intro seen; simp [dedupeBySlug]
  | cons head rest ih =>
    intro seen
    rw [dedupeBySlug]
    by_cases hc : seen.contains head.slug
    · rw [if_pos hc]; exact ih seen
    · rw [if_neg hc]
      simp only [List.map_cons, List.nodup_cons]
      refine ⟨?_, ih (head.slug :: seen)⟩
      intro hmem
      rcases List.mem_map.mp hmem with ⟨sel, hsel, hslug⟩
      have := dedupeBySlug_not_seen rest (head.slug :: seen) sel hsel
      exact this (by rw [hslug]; exact List.mem_cons_self _ _)

lemma dedupeBySlug_find? (l : List IdentitySelection) :
    ∀ (seen : List String) (s : String), s ∉ seen →
      (dedupeBySlug seen l).find? (fun sel => sel.slug = s) =
        l.find? (fun sel => sel.slug = s) := by
  induction l with
  | nil => intro seen s _; simp [dedupeBySlug]
  | cons head rest ih =>
    intro seen s hs
    rw [dedupeBySlug]
    by_cases hc : seen.contains head.slug
    · rw [if_pos hc]
      rw [List.find?_cons]
      have hmem : head.slug ∈ seen := by simpa using hc
      have hne : (head.slug = s) = False := by
        simp only [eq_iff_iff, iff_false]
        intro heq
        exact hs (heq ▸ hmem)
      simp only [decide_eq_true_eq] at *
      rw [ih seen s hs]
      cases hfind : rest.find? (fun sel => sel.slug = s) <;>
        simp [List.find?_cons, hne]
    · rw [if_neg hc]
      rw [List.find?_cons, List.find?_cons]
      by_cases heq : head.slug = s
      · simp [heq]
      · simp only [decide_eq_false heq]
        exact ih (head.slug :: seen) s (by
          intro hmem
          rcases List.mem_cons.mp hmem with h' | h'
          · exact heq h'.symm
          · exact hs h')

/-- **C4.** The snapshot scan returns an empty list when the scenario answers
directory does not exist; a file whose content failed to read or parse is
skipped, and any file recovered into a selection necessarily was an object
with a `meta.identity` object containing a string slug and a segments array
of the declared length whose entries are objects with a string value (so all
malformed files are skipped rather than failing the scan); and the scan
result deduplicates by slug — slugs are pairwise distinct, the result is a
subsequence of the per-file recoveries in traversal order, and for every slug
the entry kept is the first recovery with that slug. -/
theorem collectPersistedIdentitySelections_spec :
    (∀ segments : List IdentitySegmentSpec,
      collectPersistedIdentitySelections none segments = []) ∧
    (∀ segments : List IdentitySegmentSpec,
      readIdentitySelectionSnapshot none segments = none) ∧
    (∀ (parsed : JsonValue) (segments : List IdentitySegmentSpec) (sel : IdentitySelection),
      readIdentitySelectionSnapshot (some parsed) segments = some sel →
      snapshotShapeOk parsed segments.length = true) ∧
    (∀ (tree : List FsEntry) (segments : List IdentitySegmentSpec), segments ≠ [] →
      collectPersistedIdentitySelections (some tree) segments =
        dedupeBySlug [] ((collectIdentityAnswerFiles tree).filterMap
          (fun content => readIdentitySelectionSnapshot content segments)) ∧
      ((collectPersistedIdentitySelections (some tree) segments).map (fun s => s.slug)).Nodup ∧
      (collectPersistedIdentitySelections (some tree) segments).Sublist
        ((collectIdentityAnswerFiles tree).filterMap
          (fun content => readIdentitySelectionSnapshot content segments)) ∧
      (∀ s : String,
        (collectPersistedIdentitySelections (some tree) segments).find?
            (fun sel => sel.slug = s) =
          ((collectIdentityAnswerFiles tree).filterMap
            (fun content => readIdentitySelectionSnapshot content segments)).find?
            (fun sel => sel.slug = s))) := by
  refine ⟨?_, ?_, ?_, ?_⟩
  · intro segments
    rw [collectPersistedIdentitySelections]
    split
    · rfl
    · rfl
  · intro segments; rfl
  · intro parsed segments sel h
    exact readSnapshot_shape parsed segments sel h
  · intro tree segments hne
    have hempty : segments.isEmpty = false := by
      cases segments with
      | nil => exact absurd rfl hne
      | cons a l => rfl
    have heq : collectPersistedIdentitySelections (some tree) segments =
        dedupeBySlug [] ((collectIdentityAnswerFiles tree).filterMap
          (fun content => readIdentitySelectionSnapshot content segments)) := by
      rw [collectPersistedIdentitySelections, hempty]
      rfl
    refine ⟨heq, ?_, ?_, ?_⟩
    · rw [heq]; exact dedupeBySlug_nodup _ []
    · rw [heq]; exact dedupeBySlug_sublist _ []
    · intro s
      rw [heq]
      exact dedupeBySlug_find? _ [] s (by simp)

/-- A well-formed snapshot JSON for the C4 witness: two files share the slug
`"maintenance/daily"`, with different labels, plus one malformed file. -/
def c4SnapshotA : JsonValue :=
  .obj [("meta", .obj [("identity", .obj
    [("slug", .str "maintenance/daily"),
     ("segments", .arr [
        .obj [("id", .str "category"), ("value", .str "maintenance")],
        .obj [("id", .str "cadence"), ("value", .str "daily"), ("label", .str "Daily")]])])])]

/-- Second snapshot with the same slug (should be dropped by deduplication). -/
def c4SnapshotB : JsonValue :=
  .obj [("meta", .obj [("identity", .obj
    [("slug", .str "maintenance/daily"),
     ("segments", .arr [
        .obj [("id", .str "category"), ("value", .str "maintenance")],
        .obj [("id", .str "cadence"), ("value", .str "daily"), ("label", .str "Every day")]])])])]

/-- Scenario answers tree for the C4 witness: a nested directory, one
unparsable file, one non-JSON file and two valid snapshot files. -/
def c4Tree : List FsEntry :=
  [ .dir "maintenance"
      [ .file "daily.json" (some c4SnapshotA),
        .file "broken.json" none,
        .file "notes.txt" (some (.str "ignored")) ],
    .file "copy.json" (some c4SnapshotB),
    .file "empty.json" (some (.obj [])) ]

/-- Witness for the C4 theorem at a concrete tree and segment list. -/
theorem collectPersistedIdentitySelections_spec_witness :
    c1wSegments ≠ [] ∧
    collectPersistedIdentitySelections (some c4Tree) c1wSegments =
      dedupeBySlug [] ((collectIdentityAnswerFiles c4Tree).filterMap
        (fun content => readIdentitySelectionSnapshot content c1wSegments)) ∧
    ((collectPersistedIdentitySelections (some c4Tree) c1wSegments).map
      (fun s => s.slug)).Nodup ∧
    collectPersistedIdentitySelections none c1wSegments = [] :=
  ⟨by simp [c1wSegments],
   (collectPersistedIdentitySelections_spec.2.2.2 c4Tree c1wSegments
     (by simp [c1wSegments])).1,
   (collectPersistedIdentitySelections_spec.2.2.2 c4Tree c1wSegments
     (by simp [c1wSegments])).2.1,
   collectPersistedIdentitySelections_spec.1 c1wSegments⟩

lemma readSnapshotSegLoop_total (specs : List IdentitySegmentSpec) :
    ∀ (stored : List JsonValue) (index : Nat),
      (∀ e ∈ stored, e.isRecord = true ∧ (e.getStr "value").isSome = true) →
      ∃ sels, readSnapshotSegLoop specs index stored = some sels ∧
        (∀ i entry, stored[i]? = some entry → entry.getStr "id" = none →
          (sels[i]?).map (fun s => s.id) =
            some (match specs[index + i]? with
                  | some spec => spec.id
                  | none => "segment-" ++ toString (index + i + 1))) := by
  intro stored
  induction stored with
  | nil =>
    intro index _
    refine ⟨[], rfl, ?_⟩
    intro i entry hentry _
    simp at hentry
  | cons entry rest ih =>
    intro index hok
    have hhead := hok entry (List.mem_cons_self _ _)
    have hrest : ∀ e ∈ rest, e.isRecord = true ∧ (e.getStr "value").isSome = true :=
      fun e he => hok e (List.mem_cons_of_mem _ he)
    rcases ih (index + 1) hrest with ⟨sels', hloop', hids'⟩
    cases hval : entry.getStr "value" with
    | none => rw [hval] at hhead; simp at hhead
    | some value =>
      refine ⟨{ id :=
                  match entry.getStr "id" with
                  | some s => s
                  | none =>
                    match specs[index]? with
                    | some spec => spec.id
                    | none => "segment-" ++ toString (index + 1),
                value := value, label := (entry.getStr "label").getD value,
                source := .cli,
                details :=
                  match entry.getField "details" with
                  | some (.obj fields) => some fields
                  | _ => none } :: sels', ?_, ?_⟩
      · rw [readSnapshotSegLoop, if_pos hhead.1, hval]
        dsimp only
        rw [hloop']
      · intro i e hentry hnoid
        cases i with
        | zero =>
          simp only [List.getElem?_cons_zero, Option.some.injEq] at hentry
          subst hentry
          rw [hnoid]
          simp
        | succ j =>
          simp only [List.getElem?_cons_succ] at hentry
          have := hids' j e hentry hnoid
          simp only [List.getElem?_cons_succ]
          have harith : index + 1 + j = index + (j + 1) := by omega
          rw [harith] at this
          exact this

/-- **C10.** A snapshot file whose stored segment entry at position `i` is an
object with a string `value` but no string `id` field is not skipped: the
scanner recovers a selection and substitutes the id of the scenario's
declared segment at that position (or `"segment-<i+1>"` when that position
has no declared segment — unreachable here since the stored and declared
lengths must match). -/
theorem readSnapshot_substitutes_declared_id
    (specs : List IdentitySegmentSpec) (parsed : JsonValue) (slug : String)
    (items : List JsonValue)
    (hslug : snapshotStoredSlug parsed = some slug) (hslugne : slug ≠ "")
    (hitems : snapshotStoredSegments parsed = some items)
    (hlen : items.length = specs.length)
    (hentries : ∀ e ∈ items, e.isRecord = true ∧ (e.getStr "value").isSome = true) :
    ∃ sel, readIdentitySelectionSnapshot (some parsed) specs = some sel ∧
      ∀ (i : Nat) (entry : JsonValue), items[i]? = some entry →
        entry.getStr "id" = none →
        Option.map (fun s : IdentitySegmentSelection => s.id) sel.segments[i]? =
          some (match specs[i]? with
                | some spec => spec.id
                | none => "segment-" ++ toString (i + 1)) := by
  rcases readSnapshotSegLoop_total specs items 0 hentries with ⟨sels, hloop, hids⟩
  unfold snapshotStoredSegments at hitems
  unfold snapshotStoredSlug at hslug
  cases hid : snapshotIdentityObj parsed with
  | none => rw [hid] at hitems; exact absurd hitems (by simp)
  | some identity =>
    rw [hid] at hitems hslug
    dsimp only at hitems
    simp only [Option.some_bind] at hslug
    refine ⟨{ slug := slug, segments := sels }, ?_, ?_⟩
    · rw [readIdentitySelectionSnapshot, hid]
      dsimp only
      rw [hslug]
      cases hsegf : identity.getField "segments" with
      | none => rw [hsegf] at hitems; simp at hitems
      | some segval =>
        rw [hsegf] at hitems
        cases segval with
        | arr items' =>
          simp only [Option.some.injEq] at hitems
          subst hitems
          dsimp only
          rw [if_neg hslugne, if_neg (by simpa using hlen), hloop]
        | null => simp at hitems
        | bool b => simp at hitems
        | num n => simp at hitems
        | str s => simp at hitems
        | obj fields => simp at hitems
    · intro i entry hentry hnoid
      have := hids i entry hentry hnoid
      simpa using this

/-- Snapshot with no `id` fields at all, for the C10 witness. -/
def c10Snapshot : JsonValue :=
  .obj [("meta", .obj [("identity", .obj
    [("slug", .str "maintenance/weekly"),
     ("segments", .arr [
        .obj [("value", .str "maintenance")],
        .obj [("value", .str "weekly")]])])])]

/-- The stored segment entries of `c10Snapshot`. -/
def c10Items : List JsonValue :=
  [ .obj [("value", .str "maintenance")],
    .obj [("value", .str "weekly")] ]

/-- Witness for the C10 theorem: the recovered selection carries the declared
segment ids `category`/`cadence` although neither appears in the file. -/
theorem readSnapshot_substitutes_declared_id_witness :
    snapshotStoredSlug c10Snapshot = some "maintenance/weekly" ∧
    snapshotStoredSegments c10Snapshot = some c10Items ∧
    (∃ sel, readIdentitySelectionSnapshot (some c10Snapshot) c1wSegments = some sel ∧
      ∀ (i : Nat) (entry : JsonValue), c10Items[i]? = some entry →
        entry.getStr "id" = none →
        Option.map (fun s : IdentitySegmentSelection => s.id) sel.segments[i]? =
          some (match c1wSegments[i]? with
                | some spec => spec.id
                | none => "segment-" ++ toString (i + 1))) ∧
    readIdentitySelectionSnapshot (some c10Snapshot) c1wSegments =
      some { slug := "maintenance/weekly",
             segments :=
               [ { id := "category", value := "maintenance", label := "maintenance", source := .cli },
                 { id := "cadence", value := "weekly", label := "weekly", source := .cli } ] } :=
  ⟨rfl, rfl,
   readSnapshot_substitutes_declared_id c1wSegments c10Snapshot "maintenance/weekly"
     c10Items rfl (by decide) rfl (by decide)
     (by
       intro e he
       rcases List.mem_cons.mp he with h | h
       · subst h; exact ⟨rfl, rfl⟩
       · rcases List.mem_cons.mp h with h' | h'
         · subst h'; exact ⟨rfl, rfl⟩
         · simp at h'),
   rfl⟩

/-! ## Scanner slug fidelity (for the slug invariant) -/

lemma readSnapshotSegLoop_values (specs : List IdentitySegmentSpec) :
    ∀ (stored : List JsonValue) (index : Nat) (sels : List IdentitySegmentSelection),
      readSnapshotSegLoop specs index stored = some sels →
      sels.map (fun s => s.value) = stored.filterMap (fun e => e.getStr "value") := by
  intro stored
  induction stored with
  | nil =>
    intro index sels h
    rw [readSnapshotSegLoop] at h
    simp only [Option.some.injEq] at h
    subst h
    rfl
  | cons entry rest ih =>
    intro index sels h
    rw [readSnapshotSegLoop] at h
    by_cases hrec : entry.isRecord = true
    · rw [if_pos hrec] at h
      cases hval : entry.getStr "value" with
      | none => rw [hval] at h; simp at h
      | some value =>
        rw [hval] at h
        dsimp only at h
        cases hrest : readSnapshotSegLoop specs (index + 1) rest with
        | none => rw [hrest] at h; simp at h
        | some sels' =>
          rw [hrest] at h
          simp only [Option.some.injEq] at h
          subst h
          simp only [List.map_cons, List.filterMap_cons, hval]
          rw [ih (index + 1) sels' hrest]
    · rw [if_neg hrec] at h; simp at h

lemma readSnapshot_slug_verbatim (parsed : JsonValue)
    (specs : List IdentitySegmentSpec) (sel : IdentitySelection)
    (h : readIdentitySelectionSnapshot (some parsed) specs = some sel) :
    snapshotStoredSlug parsed = some sel.slug ∧
    ∃ items, snapshotStoredSegments parsed = some items ∧
      joinSlug sel.segments =
        String.intercalate "/" (items.filterMap (fun e => e.getStr "value")) := by
  rw [readIdentitySelectionSnapshot] at h
  cases hid : snapshotIdentityObj parsed with
  | none => rw [hid] at h; simp at h
  | some identity =>
    rw [hid] at h
    dsimp only at h
    cases hslug : identity.getStr "slug" with
    | none => rw [hslug] at h; simp at h
    | some slug =>
      rw [hslug] at h
      cases hsegf : identity.getField "segments" with
      | none => rw [hsegf] at h; simp at h
      | some segval =>
        rw [hsegf] at h
        cases segval with
        | arr items =>
          dsimp only at h
          by_cases hempty : slug = ""
          · rw [if_pos hempty] at h; exact absurd h (by simp)
          · rw [if_neg hempty] at h
            by_cases hlen : items.length = specs.length
            · rw [if_neg (by simpa using hlen)] at h
              cases hloop : readSnapshotSegLoop specs 0 items with
              | none => rw [hloop] at h; simp at h
              | some sels =>
                rw [hloop] at h
                simp only [Option.some.injEq] at h
                subst h
                refine ⟨?_, items, ?_, ?_⟩
                · rw [snapshotStoredSlug, hid]
                  simpa using hslug
                · rw [snapshotStoredSegments, hid]
                  dsimp only
                  rw [hsegf]
                · rw [joinSlug]
                  rw [readSnapshotSegLoop_values specs items 0 sels hloop]
            · rw [if_pos (by simpa using hlen)] at h; exact absurd h (by simp)
        | null => simp at h
        | bool b => simp at h
        | num n => simp at h
        | str s => simp at h
        | obj fields => simp at h

/-! ## Identity recovery from persisted answer-file metadata -/

/-- One stored segment of `PromptPersistenceMetadata.identity` (typed data
written by a previous run; provenance is not persisted). -/
structure PersistedSegmentMetadata where
  id : String
  value : String
  label : String
  details : Option Details := none
deriving Repr

/-- The `meta.identity` block as surfaced by the persistence manager. -/
structure PersistedIdentityMetadata where
  slug : String
  segments : List PersistedSegmentMetadata
deriving Repr

/-- The identity-recovery block of `runDevWizard` (lines 664–690): when
resolution produced no selection but the scenario declares identity segments,
recover the selection from the loaded answer file's `meta.identity`, trusting
the stored slug whenever its trimmed form is non-empty. -/
def recoverIdentityFromMetadata (current : Option IdentitySelection)
    (specs : List IdentitySegmentSpec)
    (identityMeta : Option PersistedIdentityMetadata) : Option IdentitySelection :=
  match current with
  | some sel => some sel
  | none =>
    if specs.length = 0 then none
    else
      match identityMeta with
      | some m =>
        if m.segments.length = specs.length then
          some { slug :=
                   if jsTrim m.slug ≠ "" then jsTrim m.slug
                   else String.intercalate "/" (m.segments.map (fun s => s.value)),
                 segments := m.segments.map (fun s =>
                   { id := s.id, value := s.value, label := s.label,
                     source := .cli, details := s.details }) }
        else none
      | none => none

/-- Snapshot whose stored slug disagrees with its stored segment values, for
the C2 counterexample. -/
def c2Snapshot : JsonValue :=
  .obj [("meta", .obj [("identity", .obj
    [("slug", .str "alpha"),
     ("segments", .arr [.obj [("id", .str "cadence"), ("value", .str "beta")]])])])]

/-- Declared segment for the C2 counterexample. -/
def c2Spec : IdentitySegmentSpec := { id := "cadence", prompt := "Select cadence" }

/-- **C2 counterexample.** Persisted-snapshot recovery does **not** maintain
the slug invariant: a stored file with slug `"alpha"` but segment value
`"beta"` reads back as a selection whose slug (`"alpha"`) differs from the
`/`-join of its segment values (`"beta"`). -/
theorem c2_counterexample :
    readIdentitySelectionSnapshot (some c2Snapshot) [c2Spec] =
      some { slug := "alpha",
             segments := [{ id := "cadence", value := "beta", label := "beta", source := .cli }] } ∧
    ({ slug := "alpha",
       segments := [{ id := "cadence", value := "beta", label := "beta", source := .cli }] :
       IdentitySelection }).slug ≠
      joinSlug [{ id := "cadence", value := "beta", label := "beta", source := .cli }] :=
  ⟨rfl, by decide⟩

/-! ## Interactive prompt surface

Prompts consume an oracle of operator responses and record the prompts they
issued in a trace.  `@clack/prompts`' `isCancel` sentinel is the `cancelled`
response; an exhausted oracle behaves like a cancellation keystroke (closing
the input stream).  `chalk` color wrapping is modelled as the identity. -/

/-- One operator response at a prompt. -/
inductive PromptResponse where
  | cancelled
  | value (s : String)
deriving Repr, DecidableEq

/-- The operator's responses, consumed in order. -/
abbrev PromptOracle := List PromptResponse

/-- A rendered select choice (`{value, label, hint?}`). -/
structure SelectChoice where
  value : String
  label : String
  hint : Option String := none
deriving Repr, DecidableEq

/-- A prompt issued to the terminal: message and choices for `select`;
message, placeholder and pre-filled initial value for `text`. -/
inductive PromptCall where
  | selectCall (message : String) (choices : List SelectChoice)
  | textCall (message : String) (placeholder : Option String) (initialValue : Option String)
deriving Repr, DecidableEq

/-- Result of a prompt-consuming computation: an error, or the value together
with the remaining oracle and the trace of prompts issued. -/
abbrev PromptResult (α : Type) := Except WizardError (α × PromptOracle × List PromptCall)

/-! ## Default-value template rendering -/

/-- `\w` or `-`: characters a `{{segmentId}}` placeholder id may contain. -/
def isTemplateWordChar (c : Char) : Bool :=
  c.isAlphanum || c = '_' || c = '-'

/-- Whitespace accepted around a placeholder id (`\s*`). -/
def isTemplateSpaceChar (c : Char) : Bool :=
  c = ' ' || c = '\t' || c = '\n' || c = '\r'

/-- Attempt to match `\s*([\w-]+)\s*}}` right after an opening `{{`,
returning the captured id and the remaining characters. -/
def matchPlaceholder (cs : List Char) : Option (String × List Char) :=
  let afterWs := cs.dropWhile isTemplateSpaceChar
  let ident := afterWs.takeWhile isTemplateWordChar
  let afterId := afterWs.dropWhile isTemplateWordChar
  if ident.isEmpty then none
  else
    match afterId.dropWhile isTemplateSpaceChar with
    | '}' :: '}' :: rest => some (String.mk ident, rest)
    | _ => none

lemma length_dropWhile_le_self {α : Type} (p : α → Bool) (l : List α) :
    (l.dropWhile p).length ≤ l.length := by
  induction l with
  | nil => simp [List.dropWhile]
  | cons a l ih =>
    rw [List.dropWhile_cons]
    by_cases h : p a = true
    · simp only [h, if_true, List.length_cons]
      omega
    · simp [h]

lemma matchPlaceholder_lt (cs : List Char) (segmentId : String) (rest : List Char)
    (h : matchPlaceholder cs = some (segmentId, rest)) : rest.length < cs.length := by
  unfold matchPlaceholder at h
  dsimp only at h
  split at h
  · exact absurd h (by simp)
  · rename_i hident
    split at h
    · rename_i r heq
      simp only [Option.some.injEq, Prod.mk.injEq] at h
      obtain ⟨-, hrest⟩ := h
      subst hrest
      have h1 : (cs.dropWhile isTemplateSpaceChar).length ≤ cs.length :=
        length_dropWhile_le_self _ _
      have hdec := congrArg List.length
        (List.takeWhile_append_dropWhile (p := isTemplateWordChar)
          (l := cs.dropWhile isTemplateSpaceChar))
      rw [List.length_append] at hdec
      have hpos : 0 < ((cs.dropWhile isTemplateSpaceChar).takeWhile isTemplateWordChar).length := by
        cases hx : (cs.dropWhile isTemplateSpaceChar).takeWhile isTemplateWordChar with
        | nil => rw [hx] at hident; simp at hident
        | cons a l => simp [hx]
      have h3 : (((cs.dropWhile isTemplateSpaceChar).dropWhile isTemplateWordChar).dropWhile
          isTemplateSpaceChar).length ≤
          ((cs.dropWhile isTemplateSpaceChar).dropWhile isTemplateWordChar).length :=
        length_dropWhile_le_self _ _
      have hlen2 := congrArg List.length heq
      simp only [List.length_cons] at hlen2
      omega
    · exact absurd h (by simp)

/-- Fuel-driven evaluator for the template replacement; every step consumes at
least one character, so `fuel = cs.length` always suffices. -/
def renderTemplateGo (selectionMap : List (String × IdentitySegmentSelection)) :
    Nat → List Char → List Char
  | 0, cs => cs
  | _ + 1, [] => []
  | fuel + 1, c :: rest =>
    if c = '{' then
      match rest with
      | [] => [c]
      | c2 :: rest2 =>
        if c2 = '{' then
          match matchPlaceholder rest2 with
          | some (segmentId, after) =>
            (match mapGet selectionMap segmentId with
             | some sel => sel.value.data
             | none => []) ++ renderTemplateGo selectionMap fuel after
          | none => '{' :: renderTemplateGo selectionMap fuel ('{' :: rest2)
        else c :: renderTemplateGo selectionMap fuel (c2 :: rest2)
    else c :: renderTemplateGo selectionMap fuel rest

/-- The regex replacement of `renderIdentityDefaultTemplate`: each
`{{\s*([\w-]+)\s*}}` occurrence is replaced by the matching already-resolved
sibling's value (the empty string when the id is unresolved); unmatched text
is kept verbatim, re-scanning one character later after a failed match,
exactly as the regex engine does. -/
def renderTemplateChars (selectionMap : List (String × IdentitySegmentSelection))
    (cs : List Char) : List Char :=
  renderTemplateGo selectionMap cs.length cs

lemma renderTemplateGo_succ_cons (selectionMap : List (String × IdentitySegmentSelection))
    (fuel : Nat) (c : Char) (rest : List Char) :
    renderTemplateGo selectionMap (fuel + 1) (c :: rest) =
      (if c = '{' then
        match rest with
        | [] => [c]
        | c2 :: rest2 =>
          if c2 = '{' then
            match matchPlaceholder rest2 with
            | some (segmentId, after) =>
              (match mapGet selectionMap segmentId with
               | some sel => sel.value.data
               | none => []) ++ renderTemplateGo selectionMap fuel after
            | none => '{' :: renderTemplateGo selectionMap fuel ('{' :: rest2)
          else c :: renderTemplateGo selectionMap fuel (c2 :: rest2)
      else c :: renderTemplateGo selectionMap fuel rest) := rfl

/-- `renderIdentityDefaultTemplate`: substitute `{{siblingId}}` placeholders
from the already-resolved selection map, then trim; an empty template or an
empty trimmed result yields no pre-fill. -/
def renderIdentityDefaultTemplate (template : String)
    (selectionMap : List (String × IdentitySegmentSelection)) : Option String :=
  if template = "" then none
  else
    let trimmed := jsTrim (String.mk (renderTemplateChars selectionMap template.data))
    if trimmed.length > 0 then some trimmed else none

/-- The pre-fill (`initialValue`) that `promptForCustomIdentityValue` hands to
the free-text prompt: the explicit default override when truthy, else the
rendered `defaultValue` template, else nothing. -/
def customIdentityPrefill (segment : IdentitySegmentSpec)
    (selectionMap : List (String × IdentitySegmentSelection))
    (initialValueOverride : Option String) : Option String :=
  match truthyString initialValueOverride with
  | some v => some v
  | none =>
    match truthyString segment.defaultValue with
    | some t => renderIdentityDefaultTemplate t selectionMap
    | none => none

/-- `promptForCustomIdentityValue`: free-text entry for a segment value.  The
response is trimmed; a blank response is an `EmptyCustomValue` error;
cancellation propagates as `identityPromptCancelled`. -/
def promptForCustomIdentityValue (segment : IdentitySegmentSpec)
    (selectionMap : List (String × IdentitySegmentSelection))
    (initialValueOverride : Option String) (oracle : PromptOracle) :
    PromptResult String :=
  let call := PromptCall.textCall segment.prompt segment.placeholder
    (customIdentityPrefill segment selectionMap initialValueOverride)
  match oracle with
  | [] => .error .identityPromptCancelled
  | .cancelled :: _ => .error .identityPromptCancelled
  | .value response :: rest =>
    let trimmed := jsTrim response
    if trimmed.length = 0 then
      .error (.fatal ("Identity segment \"" ++ segment.id ++ "\" requires a value."))
    else .ok (trimmed, rest, [call])

/-- The free-text tail of `promptForIdentitySegment` (no options, or the
`__custom__` choice): requires `allowCustom`, then builds a `"custom"`-sourced
selection from the entered value. -/
def promptCustomSegmentFlow (segment : IdentitySegmentSpec)
    (selectionMap : List (String × IdentitySegmentSelection))
    (metadataOverride : Option IdentitySegmentMetadata)
    (defaultValue : Option String) (oracle : PromptOracle) :
    PromptResult IdentitySegmentSelection :=
  match promptForCustomIdentityValue segment selectionMap defaultValue oracle with
  | .error e => .error e
  | .ok (customValue, rest, trace) =>
    match buildWizardIdentitySegmentSelection segment customValue .custom
        metadataOverride false with
    | .error e => .error e
    | .ok sel => .ok (sel, rest, trace)

/-- The select choices rendered by `promptForIdentitySegment`: declared
options, a synthetic `__custom__` entry when custom values are allowed, and —
when a default value is known — that default floated to the front (or a
synthetic `__saved__` entry when it is unlisted and custom values are
allowed). -/
def identitySegmentChoices (opts : List IdentitySegmentOption)
    (allowCustom : Bool) (defaultValue : Option String) : List SelectChoice :=
  let choices0 := opts.map (fun o => SelectChoice.mk o.value (o.label.getD o.value) o.hint)
  let choices1 :=
    if allowCustom then
      choices0 ++ [SelectChoice.mk "__custom__" "Custom value" (some "Enter a custom value")]
    else choices0
  match truthyString defaultValue with
  | some dv =>
    match choices1.find? (fun c => c.value = dv) with
    | some existing => existing :: choices1.eraseP (fun c => c.value = dv)
    | none =>
      if allowCustom then SelectChoice.mk "__saved__" dv (some "Saved value") :: choices1
      else choices1
  | none => choices1

/-- `promptForIdentitySegment`: resolve one segment interactively — a select
over the declared options (with synthetic `__custom__`/`__saved__` entries),
or direct free-text entry when no options are declared. -/
def promptForIdentitySegment (segment : IdentitySegmentSpec)
    (selectionMap : List (String × IdentitySegmentSelection))
    (metadataOverride : Option IdentitySegmentMetadata)
    (defaultValue : Option String) (oracle : PromptOracle) :
    PromptResult IdentitySegmentSelection :=
  match segment.options with
  | some opts =>
    if opts.length > 0 then
      let call := PromptCall.selectCall segment.prompt
        (identitySegmentChoices opts segment.allowCustom defaultValue)
      match oracle with
      | [] => .error .identityPromptCancelled
      | .cancelled :: _ => .error .identityPromptCancelled
      | .value choice :: rest =>
        if choice = "__saved__" then
          match buildWizardIdentitySegmentSelection segment (defaultValue.getD "") .cli
              metadataOverride true with
          | .error e => .error e
          | .ok sel => .ok (sel, rest, [call])
        else if choice = "__custom__" then
          match promptCustomSegmentFlow segment selectionMap metadataOverride
              defaultValue rest with
          | .error e => .error e
          | .ok (sel, rest', trace) => .ok (sel, rest', call :: trace)
        else
          let src :=
            if (opts.find? (fun o => o.value = choice)).isSome then SegmentSource.option
            else SegmentSource.cli
          match buildWizardIdentitySegmentSelection segment choice src
              metadataOverride false with
          | .error e => .error e
          | .ok sel => .ok (sel, rest, [call])
    else if !segment.allowCustom then
      .error (.fatal ("Identity segment \"" ++ segment.id ++
        "\" must define options or set allowCustom: true."))
    else promptCustomSegmentFlow segment selectionMap metadataOverride defaultValue oracle
  | none =>
    if !segment.allowCustom then
      .error (.fatal ("Identity segment \"" ++ segment.id ++
        "\" must define options or set allowCustom: true."))
    else promptCustomSegmentFlow segment selectionMap metadataOverride defaultValue oracle

/-- The per-segment loop of `promptForIdentitySegments`, carrying the map of
siblings resolved so far (for default templates). -/
def promptIdentitySegmentsLoop (provided : OverrideMap)
    (metadataOverrides : MetadataMap) (defaults : OverrideMap) :
    List IdentitySegmentSpec → List (String × IdentitySegmentSelection) →
    PromptOracle → PromptResult (List IdentitySegmentSelection)
  | [], _, oracle => .ok ([], oracle, [])
  | segment :: rest, selectionMap, oracle =>
    match truthyGet provided segment.id with
    | some overrideValue =>
      match buildWizardIdentitySegmentSelection segment overrideValue .cli
          (mapGet metadataOverrides segment.id) false with
      | .error e => .error e
      | .ok sel =>
        match promptIdentitySegmentsLoop provided metadataOverrides defaults rest
            ((segment.id, sel) :: selectionMap) oracle with
        | .error e => .error e
        | .ok (sels, oracle', trace) => .ok (sel :: sels, oracle', trace)
    | none =>
      match promptForIdentitySegment segment selectionMap
          (mapGet metadataOverrides segment.id) (mapGet defaults segment.id) oracle with
      | .error e => .error e
      | .ok (sel, oracle', trace) =>
        match promptIdentitySegmentsLoop provided metadataOverrides defaults rest
            ((segment.id, sel) :: selectionMap) oracle' with
        | .error e => .error e
        | .ok (sels, oracle'', trace') => .ok (sel :: sels, oracle'', trace ++ trace')

/-- `promptForIdentitySegments`: resolve every declared segment in order and
assemble the selection, recomputing the slug from the resolved values. -/
def promptForIdentitySegments (segments : List IdentitySegmentSpec)
    (provided : OverrideMap) (metadataOverrides : MetadataMap)
    (defaults : OverrideMap) (oracle : PromptOracle) :
    PromptResult IdentitySelection :=
  match promptIdentitySegmentsLoop provided metadataOverrides defaults segments [] oracle with
  | .error e => .error e
  | .ok (sels, oracle', trace) =>
    .ok ({ slug := joinSlug sels, segments := sels }, oracle', trace)

/-- `toIdentitySegmentDefaults`: per-segment default values extracted from a
snapshot (segments with an empty id or value are skipped). -/
def toIdentitySegmentDefaults (selection : IdentitySelection) : OverrideMap :=
  selection.segments.foldl (fun m segment =>
    if segment.id = "" || segment.value = "" then m
    else (segment.id, segment.value) :: m) []

/-- `promptForExistingIdentitySelection`: let the operator pick one of several
persisted identities (re-running the per-segment flow with its values as
defaults) or start a new one; an unrecognized response re-prompts. -/
def promptForExistingIdentitySelection (existing : List IdentitySelection)
    (segments : List IdentitySegmentSpec) (metadataOverrides : MetadataMap) :
    PromptOracle → PromptResult IdentitySelection
  | [] => .error .identityPromptCancelled
  | .cancelled :: _ => .error .identityPromptCancelled
  | .value response :: rest =>
    let call := PromptCall.selectCall
      "Select an existing answers identity (or create a new one):"
      (existing.map (fun sel => SelectChoice.mk sel.slug sel.slug
         (some (String.intercalate ", "
           (sel.segments.map (fun seg => seg.id ++ "=" ++ seg.value))))) ++
       [SelectChoice.mk "__new__" "Create a new identity"
         (some "Answer the identity prompts before continuing.")])
    if response = "__new__" then
      match promptForIdentitySegments segments [] metadataOverrides [] rest with
      | .error e => .error e
      | .ok (sel, oracle', trace) => .ok (sel, oracle', call :: trace)
    else
      match existing.find? (fun entry => entry.slug = response) with
      | some selected =>
        match promptForIdentitySegments segments [] metadataOverrides
            (toIdentitySegmentDefaults selected) rest with
        | .error e => .error e
        | .ok (sel, oracle', trace) => .ok (sel, oracle', call :: trace)
      | none =>
        match promptForExistingIdentitySelection existing segments metadataOverrides rest with
        | .error e => .error e
        | .ok (sel, oracle', trace) => .ok (sel, oracle', call :: trace)

/-- The three persisted-answers strategies. -/
inductive PersistedAnswersStrategy where
  | reuse
  | review
  | reset
deriving Repr, DecidableEq

/-- The strategy select prompt (`chalk.cyan` modelled as identity). -/
def persistedAnswersStrategyCall (filePath : String) : PromptCall :=
  .selectCall ("Saved answers file " ++ filePath ++
      " already exists. How should Dev Wizard proceed?")
    [ SelectChoice.mk "reuse" "Reuse saved answers"
        (some "Skip prompts and keep the existing values for this run."),
      SelectChoice.mk "review" "Review and update answers"
        (some "Use saved answers as defaults, but run every prompt again."),
      SelectChoice.mk "reset" "Start from scratch"
        (some "Clear saved answers before prompting and capture new values.") ]

/-- `promptForPersistedAnswersStrategy`: loop until one of the three strategy
values is selected; cancellation propagates as
`persistedAnswersStrategyCancelled`. -/
def promptForPersistedAnswersStrategy (filePath : String) :
    PromptOracle → PromptResult PersistedAnswersStrategy
  | [] => .error .persistedAnswersStrategyCancelled
  | .cancelled :: _ => .error .persistedAnswersStrategyCancelled
  | .value response :: rest =>
    if response = "reuse" then
      .ok (.reuse, rest, [persistedAnswersStrategyCall filePath])
    else if response = "review" then
      .ok (.review, rest, [persistedAnswersStrategyCall filePath])
    else if response = "reset" then
      .ok (.reset, rest, [persistedAnswersStrategyCall filePath])
    else
      match promptForPersistedAnswersStrategy filePath rest with
      | .error e => .error e
      | .ok (strategy, oracle', trace) =>
        .ok (strategy, oracle', persistedAnswersStrategyCall filePath :: trace)

/-! ## Explicit-slug parsing and the identity resolver -/

/-- Pieces of an explicit `--answers-identity` slug: split on `/`, trim each
piece, drop empty pieces. -/
def splitSlugPieces (slug : String) : List String :=
  ((splitOnChar '/' slug).map (fun piece => jsTrim piece)).filter (fun piece => piece ≠ "")

/-- The per-segment map of `parseIdentitySlug`: build each segment from its
piece, accepting unlisted values (`acceptUnlistedValues: true`). -/
def parseSlugSegments :
    List (IdentitySegmentSpec × String) →
    Except WizardError (List IdentitySegmentSelection)
  | [] => .ok []
  | (segment, value) :: rest =>
    match buildWizardIdentitySegmentSelection segment value .cli none true with
    | .error e => .error e
    | .ok sel =>
      match parseSlugSegments rest with
      | .error e => .error e
      | .ok sels => .ok (sel :: sels)

/-- `parseIdentitySlug`: require exactly one piece per declared segment (else
`SegmentCountMismatch`), then build each segment accepting unlisted values. -/
def parseIdentitySlug (slug : String) (segments : List IdentitySegmentSpec) :
    Except WizardError IdentitySelection :=
  let parts := splitSlugPieces slug
  if parts.length ≠ segments.length then
    .error (.fatal ("--answers-identity requires " ++ toString segments.length ++
      " segment(s) but received " ++ toString parts.length ++ "."))
  else
    match parseSlugSegments (segments.zip parts) with
    | .error e => .error e
    | .ok sels => .ok { slug := joinSlug sels, segments := sels }

/-- `normalizeIdentitySegmentOverrides`: trim keys and values, drop entries
with an empty trimmed key or value (later duplicate keys overwrite, as in a
plain object write). -/
def normalizeIdentitySegmentOverrides (overrides : OverrideMap) : OverrideMap :=
  overrides.foldl (fun normalized kv =>
    if jsTrim kv.1 = "" || jsTrim kv.2 = "" then normalized
    else (jsTrim kv.1, jsTrim kv.2) :: normalized) []

/-- `normalizeIdentitySegmentMetadata`: trim keys and labels, drop empty
labels, drop empty detail objects, and drop entries where nothing is left. -/
def normalizeIdentitySegmentMetadata (metadata : MetadataMap) : MetadataMap :=
  metadata.foldl (fun normalized kv =>
    if jsTrim kv.1 = "" then normalized
    else
      let entry : IdentitySegmentMetadata :=
        { label :=
            match kv.2.label with
            | some l => if jsTrim l = "" then none else some (jsTrim l)
            | none => none,
          details :=
            match kv.2.details with
            | some d => if d.isEmpty then none else some d
            | none => none }
      if entry.label.isNone && entry.details.isNone then normalized
      else (jsTrim kv.1, entry) :: normalized) []

/-- Inputs of `resolveWizardIdentitySelection`.  `identitySegments` is
`scenario.identity?.segments`; `answersTree` is the directory listing below
the scenario answers directory (`none` when it does not exist); the remaining
fields mirror the resolver's options. -/
structure ResolveIdentityEnv where
  scenarioId : String
  identitySegments : Option (List IdentitySegmentSpec) := none
  providedSlug : Option String := none
  providedSegments : OverrideMap := []
  providedSegmentDetails : MetadataMap := []
  usingExternalAnswers : Bool := false
  interactive : Bool := false
  answersTree : Option (List FsEntry) := none

/-- `resolveWizardIdentitySelection`: the identity-resolution state machine.
(The source's `!options.providedSlug` conjuncts inside the two interactive
re-prompt guards hold vacuously there — a truthy slug returns earlier — and
are therefore not repeated.) -/
def resolveWizardIdentitySelection (env : ResolveIdentityEnv)
    (oracle : PromptOracle) : PromptResult (Option IdentitySelection) :=
  let providedSegments := normalizeIdentitySegmentOverrides env.providedSegments
  let providedSegmentDetails := normalizeIdentitySegmentMetadata env.providedSegmentDetails
  let hasSegmentOverrides := !providedSegments.isEmpty
  let noIdentity :=
    match env.identitySegments with
    | none => true
    | some segments => segments.isEmpty
  if noIdentity then
    if (truthyString env.providedSlug).isSome ||
        (!providedSegments.isEmpty || !providedSegmentDetails.isEmpty) then
      .error (.fatal ("Scenario " ++ env.scenarioId ++
        " does not define identity metadata, but identity overrides were provided."))
    else .ok (none, oracle, [])
  else
    let segments := env.identitySegments.getD []
    match truthyString env.providedSlug with
    | some slug =>
      match parseIdentitySlug slug segments with
      | .error e => .error e
      | .ok sel => .ok (some sel, oracle, [])
    | none =>
      let persistedIdentities :=
        if env.usingExternalAnswers then none
        else some (collectPersistedIdentitySelections env.answersTree segments)
      let persistedIdentity :=
        match persistedIdentities with
        | some [sel] => some sel
        | _ => none
      let multi :=
        match persistedIdentities with
        | some l => decide (l.length > 1)
        | none => false
      if multi && !hasSegmentOverrides && env.interactive && !env.usingExternalAnswers then
        match promptForExistingIdentitySelection (persistedIdentities.getD []) segments
            providedSegmentDetails oracle with
        | .error e => .error e
        | .ok (sel, oracle', trace) => .ok (some sel, oracle', trace)
      else
        match buildIdentitySelectionFromSources segments providedSegments
            providedSegmentDetails persistedIdentity with
        | .error e => .error e
        | .ok resolution =>
          match resolution.selection with
          | some sel =>
            if persistedIdentity.isSome && !hasSegmentOverrides && env.interactive &&
                !env.usingExternalAnswers then
              match promptForIdentitySegments segments [] providedSegmentDetails
                  ((persistedIdentity.map toIdentitySegmentDefaults).getD []) oracle with
              | .error e => .error e
              | .ok (sel', oracle', trace) => .ok (some sel', oracle', trace)
            else .ok (some sel, oracle, [])
          | none =>
            if env.usingExternalAnswers then .ok (none, oracle, [])
            else if !env.interactive then
              .error (.fatal ("Scenario " ++ env.scenarioId ++
                " requires an answers identity" ++
                (if resolution.missingSegmentIds.isEmpty then ""
                 else " (" ++ String.intercalate ", " resolution.missingSegmentIds ++ ")") ++
                ". Re-run with --answers-identity <segment/...> or supply every segment via --answers-segment <id>=<value>."))
            else
              match promptForIdentitySegments segments providedSegments
                  providedSegmentDetails
                  ((persistedIdentity.map toIdentitySegmentDefaults).getD []) oracle with
              | .error e => .error e
              | .ok (sel', oracle', trace) => .ok (some sel', oracle', trace)

/-! ## Persistence path and alias derivation -/

/-- Modelled from the spec: `sanitizePersistenceSegment` is imported from the
external `@dev-wizard/engine/runtime/promptPersistence` module, whose source
is not part of this repository.  Per §4.1 it is a total function producing a
single filesystem-safe path component — it strips or replaces path separators
and other filesystem-hostile characters, may sanitize to the empty string
(callers observably substitute `"answers"` for an empty final segment), and
is stable.  Modelled as keeping only alphanumeric characters and `-`, `_`,
`.`. -/
def sanitizePersistenceSegment (value : String) : String :=
  String.mk (value.data.filter (fun c => c.isAlphanum || c = '-' || c = '_' || c = '.'))

/-- `path.join`, modelled as `/`-joining the components. -/
def joinPath (components : List String) : String :=
  String.intercalate "/" components

/-- `buildIdentityAnswersPath`: the answer-file path for a complete identity
selection — base directory, sanitized scenario directory, one directory per
sanitized segment value except the last (empty components dropped), and the
sanitized last value (or `"answers"`) as the `.json` file name. -/
def buildIdentityAnswersPath (repoRoot scenarioId : String)
    (selection : IdentitySelection) : String :=
  let sanitizedSegments :=
    selection.segments.map (fun segment => sanitizePersistenceSegment segment.value)
  let directorySegments :=
    (sanitizePersistenceSegment scenarioId ::
      sanitizedSegments.take (sanitizedSegments.length - 1)).filter
      (fun segment => segment.length > 0)
  let fileNameSegment :=
    match sanitizedSegments.getLast? with
    | some s => if s = "" then "answers" else s
    | none => "answers"
  joinPath ([repoRoot, ".dev-wizard", "answers"] ++ directorySegments ++
    [fileNameSegment ++ ".json"])

/-- Claim-side description of the same path, phrased as in the spec:
`repoRoot/.dev-wizard/answers/` then the sanitized scenario id, then one
directory per sanitized segment value except the last (empty components
dropped), then the sanitized last value — falling back to `"answers"` when it
sanitizes to the empty string — plus `".json"`. -/
def claimAnswersPath (repoRoot scenarioId : String)
    (selection : IdentitySelection) : String :=
  joinPath ([repoRoot, ".dev-wizard", "answers"] ++
    ((sanitizePersistenceSegment scenarioId ::
      selection.segments.dropLast.map
        (fun seg => sanitizePersistenceSegment seg.value)).filter
      (fun segment => segment ≠ "")) ++
    [(match selection.segments.getLast? with
      | some seg =>
        if sanitizePersistenceSegment seg.value = "" then "answers"
        else sanitizePersistenceSegment seg.value
      | none => "answers") ++ ".json"])

/-- Simplified model of node's `path.basename` for `/`-separated paths. -/
def pathBasename (p : String) : String :=
  match ((splitOnChar '/' p).filter (fun s => s ≠ "")).getLast? with
  | some base => base
  | none => ""

/-- Simplified model of node's `path.extname`. -/
def pathExtname (p : String) : String :=
  let base := pathBasename p
  match splitOnChar '.' base with
  | [] => ""
  | [_] => ""
  | parts =>
    if parts.head? = some "" && parts.length = 2 then ""
    else "." ++ (parts.getLast?).getD ""

/-- `path.basename(p, path.extname(p))`: the basename with its extension
stripped. -/
def pathBasenameNoExt (p : String) : String :=
  let base := pathBasename p
  let ext := pathExtname p
  if ext ≠ "" && base ≠ ext && stringEndsWith base ext then base.dropRight ext.length
  else base

/-- Outcome of the alias/path assignment chain of `runDevWizard`. -/
inductive AliasPhaseOutcome where
  | exitZero
  | resolved (answersAlias : String) (persistencePath : Option String)
deriving Repr, DecidableEq

/-- The `answersAlias` / `persistencePath` assignment chain of `runDevWizard`
(lines 541–655): the workspace-bootstrap lock, then — in order — an explicit
answers path, an identity selection, or (interactively) a free-text alias
prompt.  The legacy workspace-bootstrap file migration only copies a file and
affects neither value, so it is not modelled. -/
def resolveAliasAndPath (repoRoot scenarioId : String)
    (resolvedAnswersPath : Option String)
    (identitySelection : Option IdentitySelection)
    (loadPersistedAnswers : Bool) (interactiveTty : Bool)
    (oracle : PromptOracle) : PromptResult AliasPhaseOutcome :=
  let lockDefaultAnswersAlias :=
    scenarioId = "workspace-bootstrap" && resolvedAnswersPath.isNone
  let alias0 := if lockDefaultAnswersAlias then "workspace/bootstrap" else scenarioId
  let path0 : Option String :=
    if lockDefaultAnswersAlias then
      some (joinPath [repoRoot, ".dev-wizard", "answers", "workspace", "bootstrap.json"])
    else none
  match resolvedAnswersPath with
  | some answersPath =>
    let derivedAlias := pathBasenameNoExt answersPath
    let finalAlias :=
      if derivedAlias ≠ "" && jsTrim derivedAlias ≠ "" then jsTrim derivedAlias else alias0
    .ok (.resolved finalAlias (some answersPath), oracle, [])
  | none =>
    match identitySelection with
    | some selection =>
      .ok (.resolved (scenarioId ++ "/" ++ selection.slug)
        (some (buildIdentityAnswersPath repoRoot scenarioId selection)), oracle, [])
    | none =>
      if !loadPersistedAnswers && !lockDefaultAnswersAlias then
        if interactiveTty then
          let call := PromptCall.textCall
            "Name for the answers file (stored under .dev-wizard/answers/<name>.json):"
            (some scenarioId) (some scenarioId)
          match oracle with
          | [] => .ok (.exitZero, oracle, [call])
          | .cancelled :: _ => .ok (.exitZero, oracle, [call])
          | .value response :: rest =>
            .ok (.resolved (if jsTrim response ≠ "" then jsTrim response else alias0) path0,
              rest, [call])
        else .ok (.resolved alias0 path0, oracle, [])
      else .ok (.resolved alias0 path0, oracle, [])

/-! ## Run-level cancellation handling -/

/-- A finished run (`DevWizardRunResult`-shaped, restricted to the exit
code). -/
structure RunOutcome where
  exitCode : Nat
deriving Repr, DecidableEq

/-- Outcome of the identity-resolution phase of `runDevWizard`. -/
inductive IdentityPhaseOutcome where
  | exited (outcome : RunOutcome)
  | resolvedIdentity (selection : Option IdentitySelection)

/-- The `try { resolveWizardIdentitySelection } catch` block of `runDevWizard`
(lines 516–533): an `IdentityPromptCancelledError` terminates the run cleanly
with exit code 0; every other error is rethrown. -/
def runIdentityResolutionPhase (env : ResolveIdentityEnv)
    (oracle : PromptOracle) : Except WizardError IdentityPhaseOutcome :=
  match resolveWizardIdentitySelection env oracle with
  | .ok (sel, _, _) => .ok (.resolvedIdentity sel)
  | .error .identityPromptCancelled => .ok (.exited { exitCode := 0 })
  | .error e => .error e

/-- Outcome of the persisted-answers strategy phase of `runDevWizard`. -/
inductive StrategyPhaseOutcome where
  | exited (outcome : RunOutcome)
  | proceed (usePersistedAnswers : Bool) (resetPerformed : Bool)
deriving Repr, DecidableEq

/-- The strategy-prompt `try/catch` of `runDevWizard` (lines 699–729): reuse
keeps using the stored answers, review demotes them to defaults, reset clears
them; a `PersistedAnswersStrategyCancelledError` terminates the run cleanly
with exit code 0; every other error is rethrown. -/
def runPersistedAnswersStrategyPhase (filePath : String)
    (oracle : PromptOracle) : Except WizardError StrategyPhaseOutcome :=
  match promptForPersistedAnswersStrategy filePath oracle with
  | .ok (.reuse, _, _) => .ok (.proceed true false)
  | .ok (.review, _, _) => .ok (.proceed false false)
  | .ok (.reset, _, _) => .ok (.proceed false true)
  | .error .persistedAnswersStrategyCancelled => .ok (.exited { exitCode := 0 })
  | .error e => .error e

/-! ## C7: explicit slug handling -/

/-- Does `haystack` contain `needle` as a contiguous run? -/
def charListHasSub (needle : List Char) : List Char → Bool
  | [] => needle.isEmpty
  | c :: rest => startsWithChars needle (c :: rest) || charListHasSub needle rest

/-- Does `msg` contain `pattern` as a substring? -/
def containsText (msg pattern : String) : Bool :=
  charListHasSub pattern.data msg.data

lemma acceptedSegmentSelection_value (segment : IdentitySegmentSpec) (value : String)
    (source : SegmentSource) :
    (acceptedSegmentSelection segment value source).value = value := by
  unfold acceptedSegmentSelection
  cases hf : (segment.options.getD []).find? (fun c => c.value = value) with
  | none => rfl
  | some o =>
    have := List.find?_some hf
    simp only [decide_eq_true_eq] at this
    simp [this]

lemma parseSlugSegments_ok (pairs : List (IdentitySegmentSpec × String)) :
    parseSlugSegments pairs =
      .ok (pairs.map (fun p => acceptedSegmentSelection p.1 p.2 .cli)) := by
  induction pairs with
  | nil => rfl
  | cons p rest ih =>
    cases p with
    | mk segment value =>
      rw [parseSlugSegments, buildSegment_accept_unlisted, ih]
      rfl

/-- Concrete two-segment scenario from the spec's arity-mismatch example. -/
def c7Segments : List IdentitySegmentSpec :=
  [ { id := "category", prompt := "Select a category",
      options := some [{ value := "maintenance", label := some "Maintenance" }] },
    { id := "cadence", prompt := "Select cadence",
      options := some [{ value := "daily", label := some "Daily" }] } ]

/-- **C7.** An explicit identity slug is split on `/`, pieces trimmed and
empty pieces dropped.  A piece count different from the declared segment
count fails with the `SegmentCountMismatch` message naming both counts (for
the two-segment scenario and slug `"maintenance"` the message contains
`"2 segment(s)"` and `"received 1"`).  A matching count yields a selection
whose segment values are exactly the pieces — accepted even when not listed
option values — with ids in declared order; and the slug branch of the
resolver returns this result immediately, independent of the answers tree
and of the prompt oracle (no disk read, no prompt issued, oracle untouched). -/
theorem parseIdentitySlug_spec (slug : String) (segments : List IdentitySegmentSpec)
    (hsegs : segments ≠ []) (hslug : slug ≠ "") :
    ((splitSlugPieces slug).length ≠ segments.length →
      parseIdentitySlug slug segments =
        .error (.fatal ("--answers-identity requires " ++ toString segments.length ++
          " segment(s) but received " ++ toString (splitSlugPieces slug).length ++ "."))) ∧
    ((splitSlugPieces slug).length = segments.length →
      ∃ sel, parseIdentitySlug slug segments = .ok sel ∧
        sel.segments.map (fun s => s.value) = splitSlugPieces slug ∧
        sel.segments.map (fun s => s.id) = segments.map (fun s => s.id) ∧
        sel.slug = joinSlug sel.segments) ∧
    (∀ (env : ResolveIdentityEnv) (oracle : PromptOracle),
      env.identitySegments = some segments → env.providedSlug = some slug →
      resolveWizardIdentitySelection env oracle =
        match parseIdentitySlug slug segments with
        | .error e => .error e
        | .ok sel => .ok (some sel, oracle, [])) ∧
    (containsText "--answers-identity requires 2 segment(s) but received 1."
        "2 segment(s)" = true ∧
     containsText "--answers-identity requires 2 segment(s) but received 1."
        "received 1" = true ∧
     parseIdentitySlug "maintenance" c7Segments =
       .error (.fatal "--answers-identity requires 2 segment(s) but received 1.")) := by
  refine ⟨?_, ?_, ?_, by decide, by decide, rfl⟩
  · intro hne
    rw [parseIdentitySlug]
    rw [if_pos hne]
  · intro heq
    refine ⟨{ slug := joinSlug ((segments.zip (splitSlugPieces slug)).map
                (fun p => acceptedSegmentSelection p.1 p.2 .cli)),
              segments := (segments.zip (splitSlugPieces slug)).map
                (fun p => acceptedSegmentSelection p.1 p.2 .cli) }, ?_, ?_, ?_, rfl⟩
    · rw [parseIdentitySlug]
      rw [if_neg (by simp [heq]), parseSlugSegments_ok]
    · rw [List.map_map]
      have hcongr : ∀ p ∈ segments.zip (splitSlugPieces slug),
          ((fun s => s.value) ∘ (fun p => acceptedSegmentSelection p.1 p.2 .cli)) p =
            Prod.snd p := by
        intro p _
        simp [acceptedSegmentSelection_value]
      rw [List.map_congr_left hcongr]
      exact List.map_snd_zip _ _ (le_of_eq heq)
    · rw [List.map_map]
      have hcongr : ∀ p ∈ segments.zip (splitSlugPieces slug),
          ((fun s => s.id) ∘ (fun p => acceptedSegmentSelection p.1 p.2 .cli)) p =
            ((fun s => s.id) ∘ Prod.fst) p := by
        intro p _
        simp [acceptedSegmentSelection_id]
      rw [List.map_congr_left hcongr, ← List.map_map]
      rw [List.map_fst_zip _ _ (le_of_eq heq.symm)]
  · intro env oracle henvsegs henvslug
    have hempty : segments.isEmpty = false := by
      cases segments with
      | nil => exact absurd rfl hsegs
      | cons a l => rfl
    cases hres : parseIdentitySlug slug segments with
    | error e =>
      simp [resolveWizardIdentitySelection, henvsegs, henvslug, hempty, truthyString,
        hslug, hres]
    | ok sel =>
      simp [resolveWizardIdentitySelection, henvsegs, henvslug, hempty, truthyString,
        hslug, hres]

/-- Witness for the C7 theorem: the spec's own mismatch scenario, plus the
resolver's slug branch at a matching two-piece slug. -/
theorem parseIdentitySlug_spec_witness :
    c7Segments ≠ [] ∧ ("maintenance" : String) ≠ "" ∧
    parseIdentitySlug "maintenance" c7Segments =
      .error (.fatal ("--answers-identity requires " ++ toString c7Segments.length ++
        " segment(s) but received " ++
        toString (splitSlugPieces "maintenance").length ++ ".")) ∧
    resolveWizardIdentitySelection
        { scenarioId := "sched", identitySegments := some c7Segments,
          providedSlug := some "maintenance/daily",
          answersTree := some c4Tree, interactive := true }
        [PromptResponse.cancelled] =
      (match parseIdentitySlug "maintenance/daily" c7Segments with
       | .error e => .error e
       | .ok sel => .ok (some sel, [PromptResponse.cancelled], [])) :=
  ⟨by decide, by decide,
   (parseIdentitySlug_spec "maintenance" c7Segments (by decide) (by decide)).1 (by decide),
   (parseIdentitySlug_spec "maintenance/daily" c7Segments (by decide) (by decide)).2.2.1
     { scenarioId := "sched", identitySegments := some c7Segments,
       providedSlug := some "maintenance/daily",
       answersTree := some c4Tree, interactive := true }
     [PromptResponse.cancelled] rfl rfl⟩

/-! ## C6: answers alias and path for an identity selection -/

lemma length_pos_decide_eq (s : String) :
    (decide (s.length > 0)) = (decide (s ≠ "")) := by
  by_cases h : s = ""
  · subst h; rfl
  · have hpos : s.length > 0 := by
      cases s with
      | mk data =>
        cases data with
        | nil => exact absurd rfl h
        | cons a l => simp [String.length]
    simp [h, hpos]

/-- **C6.** With an identity selection present and no explicit answers path,
the alias becomes `scenarioId + "/" + slug` and the persistence path is
`buildIdentityAnswersPath` — independent of the interactivity and persisted-
answers flags, with no prompt issued; and that path equals the spec's
description: `repoRoot/.dev-wizard/answers/`, the sanitized scenario id, one
directory per sanitized segment value except the last (empty sanitized
directory components dropped), and the sanitized last value — `"answers"`
when it sanitizes to empty — plus `".json"` as the file name. -/
theorem buildIdentityAnswersPath_spec (repoRoot scenarioId : String)
    (selection : IdentitySelection) (loadPersistedAnswers interactiveTty : Bool)
    (oracle : PromptOracle) :
    resolveAliasAndPath repoRoot scenarioId none (some selection)
        loadPersistedAnswers interactiveTty oracle =
      .ok (.resolved (scenarioId ++ "/" ++ selection.slug)
        (some (buildIdentityAnswersPath repoRoot scenarioId selection)), oracle, []) ∧
    buildIdentityAnswersPath repoRoot scenarioId selection =
      claimAnswersPath repoRoot scenarioId selection := by
  constructor
  · rfl
  · simp only [buildIdentityAnswersPath, claimAnswersPath]
    have htake : (selection.segments.map
        (fun segment => sanitizePersistenceSegment segment.value)).take
        ((selection.segments.map
          (fun segment => sanitizePersistenceSegment segment.value)).length - 1) =
        selection.segments.dropLast.map
          (fun seg => sanitizePersistenceSegment seg.value) := by
      rw [← List.dropLast_eq_take, List.map_dropLast]
    rw [htake]
    have hfilter : ∀ (l : List String),
        l.filter (fun segment => segment.length > 0) =
          l.filter (fun segment => segment ≠ "") := by
      intro l
      exact List.filter_congr (fun a _ => length_pos_decide_eq a)
    rw [hfilter]
    have hlast : (selection.segments.map
        (fun segment => sanitizePersistenceSegment segment.value)).getLast? =
        (selection.segments.getLast?).map
          (fun seg => sanitizePersistenceSegment seg.value) :=
      List.getLast?_map _ _
    rw [hlast]
    cases hg : selection.segments.getLast? with
    | none => rfl
    | some seg => rfl

/-! ## C9: cancellation propagation -/

/-- **C9.** A cancellation keystroke at any identity prompt — the per-segment
select, free-text entry, or the existing-identity pick — propagates as the
distinct `identityPromptCancelled` outcome, and at the persisted-answers
strategy prompt as the distinct `persistedAnswersStrategyCancelled` outcome;
both are different from every ordinary (`fatal`) error; and the run-level
handlers turn exactly these outcomes into a clean termination with exit code
0 instead of a user-visible failure. -/
theorem cancellation_spec :
    (∀ (segment : IdentitySegmentSpec)
        (selectionMap : List (String × IdentitySegmentSelection))
        (md : Option IdentitySegmentMetadata) (dv : Option String)
        (rest : PromptOracle) (opts : List IdentitySegmentOption),
        segment.options = some opts → opts.length > 0 →
        promptForIdentitySegment segment selectionMap md dv
          (.cancelled :: rest) = .error .identityPromptCancelled) ∧
    (∀ (segment : IdentitySegmentSpec)
        (selectionMap : List (String × IdentitySegmentSelection))
        (ov : Option String) (rest : PromptOracle),
        promptForCustomIdentityValue segment selectionMap ov
          (.cancelled :: rest) = .error .identityPromptCancelled) ∧
    (∀ (existing : List IdentitySelection) (segments : List IdentitySegmentSpec)
        (metadataOverrides : MetadataMap) (rest : PromptOracle),
        promptForExistingIdentitySelection existing segments metadataOverrides
          (.cancelled :: rest) = .error .identityPromptCancelled) ∧
    (∀ (filePath : String) (rest : PromptOracle),
        promptForPersistedAnswersStrategy filePath (.cancelled :: rest) =
          .error .persistedAnswersStrategyCancelled) ∧
    (∀ m : String,
        WizardError.identityPromptCancelled ≠ WizardError.fatal m ∧
        WizardError.persistedAnswersStrategyCancelled ≠ WizardError.fatal m ∧
        WizardError.identityPromptCancelled ≠
          WizardError.persistedAnswersStrategyCancelled) ∧
    (∀ (env : ResolveIdentityEnv) (oracle : PromptOracle),
        resolveWizardIdentitySelection env oracle = .error .identityPromptCancelled →
        runIdentityResolutionPhase env oracle = .ok (.exited { exitCode := 0 })) ∧
    (∀ (filePath : String) (oracle : PromptOracle),
        promptForPersistedAnswersStrategy filePath oracle =
          .error .persistedAnswersStrategyCancelled →
        runPersistedAnswersStrategyPhase filePath oracle =
          .ok (.exited { exitCode := 0 })) := by
  refine ⟨?_, ?_, ?_, ?_, ?_, ?_, ?_⟩
  · intro segment selectionMap md dv rest opts hopts hlen
    rw [promptForIdentitySegment, hopts]
    dsimp only
    rw [if_pos hlen]
  · intro segment selectionMap ov rest
    rfl
  · intro existing segments metadataOverrides rest
    rfl
  · intro filePath rest
    rfl
  · intro m
    exact ⟨by simp, by simp, by simp⟩
  · intro env oracle h
    rw [runIdentityResolutionPhase, h]
  · intro filePath oracle h
    rw [runPersistedAnswersStrategyPhase, h]

/-- Interactive environment for the C9 witness: one custom-only segment, no
overrides, empty answers tree — resolution goes straight to the free-text
prompt, where the operator cancels. -/
def c9Segment : IdentitySegmentSpec :=
  { id := "window", prompt := "Name the window", allowCustom := true }

def c9Env : ResolveIdentityEnv :=
  { scenarioId := "sched",
    identitySegments := some [c9Segment],
    interactive := true,
    answersTree := none }

/-- Witness for the C9 theorem: a concrete cancelled run exits with code 0
from both handlers. -/
theorem cancellation_spec_witness :
    resolveWizardIdentitySelection c9Env [PromptResponse.cancelled] =
      .error .identityPromptCancelled ∧
    runIdentityResolutionPhase c9Env [PromptResponse.cancelled] =
      .ok (.exited { exitCode := 0 }) ∧
    promptForPersistedAnswersStrategy "/repo/.dev-wizard/answers/sched/w.json"
      [PromptResponse.cancelled] = .error .persistedAnswersStrategyCancelled ∧
    runPersistedAnswersStrategyPhase "/repo/.dev-wizard/answers/sched/w.json"
      [PromptResponse.cancelled] = .ok (.exited { exitCode := 0 }) :=
  ⟨rfl,
   cancellation_spec.2.2.2.2.2.1 c9Env [PromptResponse.cancelled] rfl,
   cancellation_spec.2.2.2.1 "/repo/.dev-wizard/answers/sched/w.json" [],
   cancellation_spec.2.2.2.2.2.2 "/repo/.dev-wizard/answers/sched/w.json"
     [PromptResponse.cancelled]
     (cancellation_spec.2.2.2.1 "/repo/.dev-wizard/answers/sched/w.json" [])⟩

/-! ## C8: free-text pre-fill from the default-value template -/

/-- A well-formed template is an alternation of literal runs and
`{{segmentId}}` placeholders. -/
inductive TemplateToken where
  | lit (s : String)
  | placeholder (segmentId : String)

/-- The substitution the claim describes: a placeholder becomes the resolved
sibling's value, or the empty string when that sibling is unresolved; literal
text is kept. -/
def TemplateToken.render (selectionMap : List (String × IdentitySegmentSelection)) :
    TemplateToken → String
  | .lit s => s
  | .placeholder segmentId =>
    match mapGet selectionMap segmentId with
    | some sel => sel.value
    | none => ""

/-- The template text denoted by a token list. -/
def templateSourceChars : List TemplateToken → List Char
  | [] => []
  | .lit s :: rest => s.data ++ templateSourceChars rest
  | .placeholder segmentId :: rest =>
    '{' :: '{' :: (segmentId.data ++ ('}' :: '}' :: templateSourceChars rest))

/-- The template text denoted by a token list, as a string. -/
def templateSource (tokens : List TemplateToken) : String :=
  String.mk (templateSourceChars tokens)

/-- Well-formedness: literals contain no `{`; placeholder ids are non-empty
runs of `[\w-]` characters. -/
def TemplateToken.wellFormed : TemplateToken → Bool
  | .lit s => s.data.all (fun c => c ≠ '{')
  | .placeholder segmentId =>
    !segmentId.data.isEmpty && segmentId.data.all isTemplateWordChar

/-- The fully substituted template text for a token list. -/
def renderedTokens (selectionMap : List (String × IdentitySegmentSelection))
    (tokens : List TemplateToken) : String :=
  String.mk ((tokens.map
    (fun t => (TemplateToken.render selectionMap t).data)).flatten)

lemma space_char_cases (c : Char) (h : isTemplateSpaceChar c = true) :
    c = ' ' ∨ c = '\t' ∨ c = '\n' ∨ c = '\r' ∨ c = '\x0b' ∨ c = '\x0c' := by
  unfold isTemplateSpaceChar at h
  simp only [Bool.or_eq_true, decide_eq_true_eq] at h
  tauto

lemma word_not_space (c : Char) (h : isTemplateWordChar c = true) :
    isTemplateSpaceChar c = false := by
  cases hsp : isTemplateSpaceChar c with
  | false => rfl
  | true =>
    exfalso
    rcases space_char_cases c hsp with hc | hc | hc | hc | hc | hc <;>
      (subst hc; exact absurd h (by decide))

lemma takeWhile_word_append (l tl : List Char)
    (h : ∀ c ∈ l, isTemplateWordChar c = true) :
    (l ++ '}' :: tl).takeWhile isTemplateWordChar = l ∧
    (l ++ '}' :: tl).dropWhile isTemplateWordChar = '}' :: tl := by
  have hbr : isTemplateWordChar '}' = false := by decide
  induction l with
  | nil =>
    constructor
    · rw [List.nil_append, List.takeWhile_cons, hbr]
      simp
    · rw [List.nil_append, List.dropWhile_cons, hbr]
      simp
  | cons c l ih =>
    have hc := h c (List.mem_cons_self _ _)
    have hrest := ih (fun x hx => h x (List.mem_cons_of_mem _ hx))
    constructor
    · rw [List.cons_append, List.takeWhile_cons, hc]
      simp [hrest.1]
    · rw [List.cons_append, List.dropWhile_cons, hc]
      simp [hrest.2]

lemma dropWhile_space_word_head (c : Char) (cs : List Char)
    (h : isTemplateWordChar c = true) :
    (c :: cs).dropWhile isTemplateSpaceChar = c :: cs := by
  rw [List.dropWhile_cons, word_not_space c h]
  simp

lemma matchPlaceholder_exact (segmentId : String) (tl : List Char)
    (hne : segmentId.data ≠ [])
    (hword : ∀ c ∈ segmentId.data, isTemplateWordChar c = true) :
    matchPlaceholder (segmentId.data ++ '}' :: '}' :: tl) = some (segmentId, tl) := by
  unfold matchPlaceholder
  dsimp only
  cases hd : segmentId.data with
  | nil => exact absurd hd hne
  | cons c cs =>
    have hc : isTemplateWordChar c = true := by
      refine hword c ?_
      rw [hd]
      exact List.mem_cons_self _ _
    have hword' : ∀ x ∈ c :: cs, isTemplateWordChar x = true := by
      intro x hx
      refine hword x ?_
      rw [hd]
      exact hx
    rw [List.cons_append, dropWhile_space_word_head c _ hc, ← List.cons_append]
    rcases takeWhile_word_append (c :: cs) ('}' :: tl) hword' with ⟨htake, hdrop⟩
    rw [htake, hdrop]
    have hbrace : isTemplateSpaceChar '}' = false := by decide
    rw [List.dropWhile_cons, hbrace]
    have hmk : String.mk (c :: cs) = segmentId := by rw [← hd]
    simp [hmk]

lemma renderTemplateGo_fuel (selectionMap : List (String × IdentitySegmentSelection)) :
    ∀ (fuel : Nat) (cs : List Char), cs.length ≤ fuel →
      ∀ (fuel' : Nat), cs.length ≤ fuel' →
      renderTemplateGo selectionMap fuel cs = renderTemplateGo selectionMap fuel' cs := by
  intro fuel
  induction fuel with
  | zero =>
    intro cs hcs fuel' _
    have hnil : cs = [] := List.length_eq_zero.mp (Nat.le_zero.mp hcs)
    subst hnil
    cases fuel' <;> rfl
  | succ fuel ih =>
    intro cs hcs fuel' hcs'
    cases cs with
    | nil => cases fuel' <;> rfl
    | cons c rest =>
      cases fuel' with
      | zero => simp at hcs'
      | succ fuel'' =>
        simp only [List.length_cons, Nat.succ_le_succ_iff] at hcs hcs'
        rw [renderTemplateGo_succ_cons, renderTemplateGo_succ_cons]
        by_cases hc : c = '{'
        · rw [if_pos hc, if_pos hc]
          cases rest with
          | nil => rfl
          | cons c2 rest2 =>
            dsimp only
            by_cases hc2 : c2 = '{'
            · rw [if_pos hc2, if_pos hc2]
              cases hm : matchPlaceholder rest2 with
              | some pair =>
                cases pair with
                | mk segmentId after =>
                  dsimp only
                  have hlt := matchPlaceholder_lt rest2 segmentId after hm
                  simp only [List.length_cons] at hcs hcs'
                  have h1 : after.length ≤ fuel := by omega
                  have h2 : after.length ≤ fuel'' := by omega
                  rw [ih after h1 fuel'' h2]
              | none =>
                dsimp only
                simp only [List.length_cons] at hcs hcs'
                have h1 : ('{' :: rest2).length ≤ fuel := by simp; omega
                have h2 : ('{' :: rest2).length ≤ fuel'' := by simp; omega
                rw [ih ('{' :: rest2) h1 fuel'' h2]
            · rw [if_neg hc2, if_neg hc2]
              rw [ih (c2 :: rest2) hcs fuel'' hcs']
        · rw [if_neg hc, if_neg hc]
          rw [ih rest hcs fuel'' hcs']

lemma renderTemplateChars_append_no_lbrace
    (selectionMap : List (String × IdentitySegmentSelection)) :
    ∀ (l cs : List Char), (∀ c ∈ l, c ≠ '{') →
      renderTemplateChars selectionMap (l ++ cs) =
        l ++ renderTemplateChars selectionMap cs := by
  intro l
  induction l with
  | nil => intro cs _; simp
  | cons c l ih =>
    intro cs h
    have hc : ¬(c = '{') := h c (List.mem_cons_self _ _)
    unfold renderTemplateChars
    rw [List.cons_append, List.length_cons, renderTemplateGo_succ_cons, if_neg hc]
    have := ih cs (fun x hx => h x (List.mem_cons_of_mem _ hx))
    unfold renderTemplateChars at this
    rw [this, List.cons_append]

lemma renderTemplateChars_placeholder
    (selectionMap : List (String × IdentitySegmentSelection))
    (segmentId : String) (tl : List Char)
    (hne : segmentId.data ≠ [])
    (hword : ∀ c ∈ segmentId.data, isTemplateWordChar c = true) :
    renderTemplateChars selectionMap
        ('{' :: '{' :: (segmentId.data ++ ('}' :: '}' :: tl))) =
      (match mapGet selectionMap segmentId with
       | some sel => sel.value.data
       | none => []) ++ renderTemplateChars selectionMap tl := by
  unfold renderTemplateChars
  rw [List.length_cons, renderTemplateGo_succ_cons, if_pos rfl]
  dsimp only
  rw [if_pos rfl, matchPlaceholder_exact segmentId tl hne hword]
  dsimp only
  congr 1
  refine renderTemplateGo_fuel selectionMap _ tl ?_ tl.length (le_refl _)
  simp [List.length_append]
  omega

lemma renderTemplateChars_tokens
    (selectionMap : List (String × IdentitySegmentSelection)) :
    ∀ tokens : List TemplateToken, tokens.all TemplateToken.wellFormed = true →
      renderTemplateChars selectionMap (templateSourceChars tokens) =
        (tokens.map (fun t => (TemplateToken.render selectionMap t).data)).flatten := by
  intro tokens
  induction tokens with
  | nil => intro _; rfl
  | cons t rest ih =>
    intro h
    rw [List.all_cons] at h
    have ht := ((Bool.and_eq_true _ _).mp h).1
    have hrest := ((Bool.and_eq_true _ _).mp h).2
    cases t with
    | lit s =>
      have hs : ∀ c ∈ s.data, c ≠ '{' := by
        intro c hcmem
        have := List.all_eq_true.mp ht c hcmem
        simpa using this
      rw [templateSourceChars,
        renderTemplateChars_append_no_lbrace selectionMap s.data _ hs, ih hrest]
      rfl
    | placeholder segmentId =>
      have hne : segmentId.data ≠ [] := by
        have := ((Bool.and_eq_true _ _).mp ht).1
        intro hnil
        rw [hnil] at this
        simp at this
      have hword : ∀ c ∈ segmentId.data, isTemplateWordChar c = true := by
        intro c hcmem
        exact List.all_eq_true.mp ((Bool.and_eq_true _ _).mp ht).2 c hcmem
      rw [templateSourceChars,
        renderTemplateChars_placeholder selectionMap segmentId _ hne hword, ih hrest]
      rw [List.map_cons, List.flatten_cons]
      cases hmg : mapGet selectionMap segmentId with
      | some sel => simp [TemplateToken.render, hmg]
      | none => simp [TemplateToken.render, hmg]

/-- **C8.** When free-text entry has no explicit default override and the
segment's `defaultValue` is a well-formed non-empty template, the pre-fill
passed to the text prompt is exactly the template with every
`{{siblingId}}` placeholder replaced by the already-resolved sibling's value
(the empty string for an unresolved sibling), trimmed — with no pre-fill when
the result trims to empty; and the free-text prompt call carries exactly this
pre-fill as its initial value. -/
theorem customIdentityPrefill_spec (segment : IdentitySegmentSpec)
    (selectionMap : List (String × IdentitySegmentSelection))
    (tokens : List TemplateToken)
    (hwf : tokens.all TemplateToken.wellFormed = true)
    (htmpl : segment.defaultValue = some (templateSource tokens))
    (hne : templateSource tokens ≠ "") :
    customIdentityPrefill segment selectionMap none =
      (if (jsTrim (renderedTokens selectionMap tokens)).length > 0
       then some (jsTrim (renderedTokens selectionMap tokens)) else none) ∧
    (∀ (response : String) (rest : PromptOracle),
      promptForCustomIdentityValue segment selectionMap none
          (.value response :: rest) =
        (if (jsTrim response).length = 0 then
           .error (.fatal ("Identity segment \"" ++ segment.id ++
             "\" requires a value."))
         else .ok (jsTrim response, rest,
           [PromptCall.textCall segment.prompt segment.placeholder
             (customIdentityPrefill segment selectionMap none)]))) := by
  constructor
  · unfold customIdentityPrefill
    rw [htmpl]
    have ht : truthyString (some (templateSource tokens)) = some (templateSource tokens) := by
      unfold truthyString
      dsimp only
      rw [if_neg hne]
    rw [ht]
    dsimp only [truthyString]
    unfold renderIdentityDefaultTemplate
    rw [if_neg hne]
    have hdata : (templateSource tokens).data = templateSourceChars tokens := rfl
    rw [hdata, renderTemplateChars_tokens selectionMap tokens hwf]
    rfl
  · intro response rest
    rfl

/-- The spec's free-text pre-fill scenario: segment `window`,
`defaultValue "{{cadence}}-maintenance"`, sibling `cadence` already resolved
to `"weekly"`. -/
def c8Segment : IdentitySegmentSpec :=
  { id := "window", prompt := "Name the maintenance window", allowCustom := true,
    defaultValue := some "{{cadence}}-maintenance" }

/-- The already-resolved sibling map for the C8 witness. -/
def c8Map : List (String × IdentitySegmentSelection) :=
  [("cadence", { id := "cadence", value := "weekly", label := "Weekly",
                 source := .option })]

/-- Token decomposition of `"{{cadence}}-maintenance"`. -/
def c8Tokens : List TemplateToken :=
  [.placeholder "cadence", .lit "-maintenance"]

/-- Witness for the C8 theorem: the pre-fill at the spec's scenario equals
`"weekly-maintenance"`. -/
theorem customIdentityPrefill_spec_witness :
    c8Tokens.all TemplateToken.wellFormed = true ∧
    c8Segment.defaultValue = some (templateSource c8Tokens) ∧
    templateSource c8Tokens ≠ "" ∧
    customIdentityPrefill c8Segment c8Map none =
      (if (jsTrim (renderedTokens c8Map c8Tokens)).length > 0
       then some (jsTrim (renderedTokens c8Map c8Tokens)) else none) ∧
    customIdentityPrefill c8Segment c8Map none = some "weekly-maintenance" :=
  ⟨by decide, rfl, by decide,
   (customIdentityPrefill_spec c8Segment c8Map c8Tokens (by decide) rfl (by decide)).1,
   rfl⟩

/-! ## C5: non-interactive resolution is deterministic -/

/-- The claim-side pure characterization of non-interactive, non-external
resolution: a function of the environment alone (declared segments,
overrides, answers tree), with no prompt interaction. -/
def resolveIdentityNonInteractive (env : ResolveIdentityEnv) :
    Except WizardError (Option IdentitySelection) :=
  let providedSegments := normalizeIdentitySegmentOverrides env.providedSegments
  let providedSegmentDetails := normalizeIdentitySegmentMetadata env.providedSegmentDetails
  let noIdentity :=
    match env.identitySegments with
    | none => true
    | some segments => segments.isEmpty
  if noIdentity then
    if (truthyString env.providedSlug).isSome ||
        (!providedSegments.isEmpty || !providedSegmentDetails.isEmpty) then
      .error (.fatal ("Scenario " ++ env.scenarioId ++
        " does not define identity metadata, but identity overrides were provided."))
    else .ok none
  else
    let segments := env.identitySegments.getD []
    match truthyString env.providedSlug with
    | some slug =>
      match parseIdentitySlug slug segments with
      | .error e => .error e
      | .ok sel => .ok (some sel)
    | none =>
      let persistedIdentity :=
        match collectPersistedIdentitySelections env.answersTree segments with
        | [sel] => some sel
        | _ => none
      match buildIdentitySelectionFromSources segments providedSegments
          providedSegmentDetails persistedIdentity with
      | .error e => .error e
      | .ok resolution =>
        match resolution.selection with
        | some sel => .ok (some sel)
        | none =>
          .error (.fatal ("Scenario " ++ env.scenarioId ++
            " requires an answers identity" ++
            (if resolution.missingSegmentIds.isEmpty then ""
             else " (" ++ String.intercalate ", " resolution.missingSegmentIds ++ ")") ++
            ". Re-run with --answers-identity <segment/...> or supply every segment via --answers-segment <id>=<value>."))

/-- The persistence path derived from a resolution outcome (when it carries a
selection). -/
def identityAnswersPathOf (repoRoot scenarioId : String) :
    PromptResult (Option IdentitySelection) → Option String
  | .ok (some sel, _, _) => some (buildIdentityAnswersPath repoRoot scenarioId sel)
  | _ => none

/-- **C5.** With `interactive = false` and answers not loaded from an external
file, resolution is a pure function of the environment: for every prompt
oracle it returns the same outcome (the oracle is left untouched and no
prompt is issued), so two runs over identical inputs and identical on-disk
state produce equal outcomes and — consequently — identical derived
`buildIdentityAnswersPath` persistence paths. -/
theorem resolve_noninteractive_deterministic (env : ResolveIdentityEnv)
    (hint : env.interactive = false) (hext : env.usingExternalAnswers = false) :
    (∀ oracle : PromptOracle,
      resolveWizardIdentitySelection env oracle =
        match resolveIdentityNonInteractive env with
        | .ok v => .ok (v, oracle, [])
        | .error e => .error e) ∧
    (∀ (o1 o2 : PromptOracle) (repoRoot : String),
      identityAnswersPathOf repoRoot env.scenarioId
          (resolveWizardIdentitySelection env o1) =
        identityAnswersPathOf repoRoot env.scenarioId
          (resolveWizardIdentitySelection env o2)) := by
  have hmain : ∀ oracle : PromptOracle,
      resolveWizardIdentitySelection env oracle =
        match resolveIdentityNonInteractive env with
        | .ok v => .ok (v, oracle, [])
        | .error e => .error e := by
    intro oracle
    cases hseg : env.identitySegments with
    | none =>
      by_cases hov : ((truthyString env.providedSlug).isSome ||
          (!List.isEmpty (normalizeIdentitySegmentOverrides env.providedSegments) ||
            !List.isEmpty (normalizeIdentitySegmentMetadata env.providedSegmentDetails))) = true
      · simp [resolveWizardIdentitySelection, resolveIdentityNonInteractive, hseg, hov]
      · simp [resolveWizardIdentitySelection, resolveIdentityNonInteractive, hseg, hov]
    | some segments =>
      cases hempty : segments.isEmpty with
      | true =>
        by_cases hov : ((truthyString env.providedSlug).isSome ||
            (!List.isEmpty (normalizeIdentitySegmentOverrides env.providedSegments) ||
              !List.isEmpty (normalizeIdentitySegmentMetadata env.providedSegmentDetails))) = true
        · simp [resolveWizardIdentitySelection, resolveIdentityNonInteractive, hseg,
            hempty, hov]
        · simp [resolveWizardIdentitySelection, resolveIdentityNonInteractive, hseg,
            hempty, hov]
      | false =>
        cases hslug : truthyString env.providedSlug with
        | some slug =>
          cases hp : parseIdentitySlug slug segments with
          | error e =>
            simp [resolveWizardIdentitySelection, resolveIdentityNonInteractive, hseg,
              hempty, hslug, hp]
          | ok sel =>
            simp [resolveWizardIdentitySelection, resolveIdentityNonInteractive, hseg,
              hempty, hslug, hp]
        | none =>
          cases hcol : collectPersistedIdentitySelections env.answersTree segments with
          | nil =>
            cases hbuild : buildIdentitySelectionFromSources segments
                (normalizeIdentitySegmentOverrides env.providedSegments)
                (normalizeIdentitySegmentMetadata env.providedSegmentDetails) none with
            | error e =>
              simp [resolveWizardIdentitySelection, resolveIdentityNonInteractive, hseg,
                hempty, hslug, hcol, hbuild, hint, hext]
            | ok resolution =>
              cases hsel : resolution.selection with
              | some sel =>
                simp [resolveWizardIdentitySelection, resolveIdentityNonInteractive, hseg,
                  hempty, hslug, hcol, hbuild, hsel, hint, hext]
              | none =>
                simp [resolveWizardIdentitySelection, resolveIdentityNonInteractive, hseg,
                  hempty, hslug, hcol, hbuild, hsel, hint, hext]
          | cons sel1 rest =>
            cases rest with
            | nil =>
              cases hbuild : buildIdentitySelectionFromSources segments
                  (normalizeIdentitySegmentOverrides env.providedSegments)
                  (normalizeIdentitySegmentMetadata env.providedSegmentDetails)
                  (some sel1) with
              | error e =>
                simp [resolveWizardIdentitySelection, resolveIdentityNonInteractive, hseg,
                  hempty, hslug, hcol, hbuild, hint, hext]
              | ok resolution =>
                cases hsel : resolution.selection with
                | some sel =>
                  simp [resolveWizardIdentitySelection, resolveIdentityNonInteractive,
                    hseg, hempty, hslug, hcol, hbuild, hsel, hint, hext]
                | none =>
                  simp [resolveWizardIdentitySelection, resolveIdentityNonInteractive,
                    hseg, hempty, hslug, hcol, hbuild, hsel, hint, hext]
            | cons sel2 rest2 =>
              cases hbuild : buildIdentitySelectionFromSources segments
                  (normalizeIdentitySegmentOverrides env.providedSegments)
                  (normalizeIdentitySegmentMetadata env.providedSegmentDetails) none with
              | error e =>
                simp [resolveWizardIdentitySelection, resolveIdentityNonInteractive, hseg,
                  hempty, hslug, hcol, hbuild, hint, hext]
              | ok resolution =>
                cases hsel : resolution.selection with
                | some sel =>
                  simp [resolveWizardIdentitySelection, resolveIdentityNonInteractive,
                    hseg, hempty, hslug, hcol, hbuild, hsel, hint, hext]
                | none =>
                  simp [resolveWizardIdentitySelection, resolveIdentityNonInteractive,
                    hseg, hempty, hslug, hcol, hbuild, hsel, hint, hext]
  refine ⟨hmain, ?_⟩
  intro o1 o2 repoRoot
  rw [hmain o1, hmain o2]
  cases resolveIdentityNonInteractive env with
  | error e => rfl
  | ok v => cases v <;> rfl

/-- Non-interactive environment for the C5 witness: both segments supplied
via explicit overrides, empty on-disk state. -/
def c5Env : ResolveIdentityEnv :=
  { scenarioId := "sched", identitySegments := some c7Segments,
    providedSegments := [("category", "maintenance"), ("cadence", "daily")],
    answersTree := none }

/-- Witness for the C5 theorem at a concrete environment and two different
oracles. -/
theorem resolve_noninteractive_deterministic_witness :
    c5Env.interactive = false ∧ c5Env.usingExternalAnswers = false ∧
    resolveWizardIdentitySelection c5Env [PromptResponse.cancelled] =
      (match resolveIdentityNonInteractive c5Env with
       | .ok v => .ok (v, [PromptResponse.cancelled], [])
       | .error e => .error e) ∧
    identityAnswersPathOf "/repo" c5Env.scenarioId
        (resolveWizardIdentitySelection c5Env [PromptResponse.cancelled]) =
      identityAnswersPathOf "/repo" c5Env.scenarioId
        (resolveWizardIdentitySelection c5Env []) :=
  ⟨rfl, rfl,
   (resolve_noninteractive_deterministic c5Env rfl rfl).1 [PromptResponse.cancelled],
   (resolve_noninteractive_deterministic c5Env rfl rfl).2
     [PromptResponse.cancelled] [] "/repo"⟩

/-! ## C2: the slug/segments invariant across selection producers -/

lemma buildIdentity_slug_invariant (segments : List IdentitySegmentSpec)
    (provided : OverrideMap) (pmeta : MetadataMap)
    (fallback : Option IdentitySelection) (res : IdentityBuildResult)
    (h : buildIdentitySelectionFromSources segments provided pmeta fallback = .ok res)
    (sel : IdentitySelection) (hsel : res.selection = some sel) :
    sel.slug = joinSlug sel.segments := by
  unfold buildIdentitySelectionFromSources at h
  cases hloop : buildIdentityLoop provided pmeta (fallbackMapOf fallback) segments with
  | error e => rw [hloop] at h; exact absurd h (by simp)
  | ok pair =>
    rw [hloop] at h
    cases pair with
    | mk sels missing =>
      dsimp only at h
      by_cases hm : missing.isEmpty = true
      · rw [if_pos hm] at h
        simp only [Except.ok.injEq] at h
        rw [← h] at hsel
        simp only [Option.some.injEq] at hsel
        rw [← hsel]
      · rw [if_neg hm] at h
        simp only [Except.ok.injEq] at h
        rw [← h] at hsel
        simp at hsel

lemma parseIdentitySlug_slug_invariant (slug : String)
    (segments : List IdentitySegmentSpec) (sel : IdentitySelection)
    (h : parseIdentitySlug slug segments = .ok sel) :
    sel.slug = joinSlug sel.segments := by
  unfold parseIdentitySlug at h
  by_cases hc : (splitSlugPieces slug).length ≠ segments.length
  · rw [if_pos hc] at h; exact absurd h (by simp)
  · rw [if_neg hc] at h
    cases hp : parseSlugSegments (segments.zip (splitSlugPieces slug)) with
    | error e => rw [hp] at h; exact absurd h (by simp)
    | ok sels =>
      rw [hp] at h
      simp only [Except.ok.injEq] at h
      rw [← h]

lemma promptForIdentitySegments_slug_invariant (segments : List IdentitySegmentSpec)
    (provided : OverrideMap) (md : MetadataMap) (defaults : OverrideMap)
    (oracle : PromptOracle) (sel : IdentitySelection) (o : PromptOracle)
    (t : List PromptCall)
    (h : promptForIdentitySegments segments provided md defaults oracle =
      .ok (sel, o, t)) :
    sel.slug = joinSlug sel.segments := by
  unfold promptForIdentitySegments at h
  cases hloop : promptIdentitySegmentsLoop provided md defaults segments [] oracle with
  | error e => rw [hloop] at h; exact absurd h (by simp)
  | ok trip =>
    rw [hloop] at h
    cases trip with
    | mk sels rest =>
      cases rest with
      | mk o' t' =>
        simp only [Except.ok.injEq, Prod.mk.injEq] at h
        rw [← h.1]

lemma promptForExisting_slug_invariant (existing : List IdentitySelection)
    (segments : List IdentitySegmentSpec) (md : MetadataMap) :
    ∀ (oracle : PromptOracle) (sel : IdentitySelection) (o : PromptOracle)
      (t : List PromptCall),
      promptForExistingIdentitySelection existing segments md oracle =
        .ok (sel, o, t) →
      sel.slug = joinSlug sel.segments := by
  intro oracle
  induction oracle with
  | nil =>
    intro sel o t h
    exact absurd h (by simp [promptForExistingIdentitySelection])
  | cons r rest ih =>
    intro sel o t h
    cases r with
    | cancelled => exact absurd h (by simp [promptForExistingIdentitySelection])
    | value response =>
      rw [promptForExistingIdentitySelection] at h
      by_cases hnew : response = "__new__"
      · rw [if_pos hnew] at h
        cases hp : promptForIdentitySegments segments [] md [] rest with
        | error e => rw [hp] at h; exact absurd h (by simp)
        | ok trip =>
          rw [hp] at h
          cases trip with
          | mk sel' rest' =>
            cases rest' with
            | mk o' t' =>
              simp only [Except.ok.injEq, Prod.mk.injEq] at h
              rw [← h.1]
              exact promptForIdentitySegments_slug_invariant segments [] md [] rest
                sel' o' t' hp
      · rw [if_neg hnew] at h
        cases hf : existing.find? (fun entry => entry.slug = response) with
        | some selected =>
          rw [hf] at h
          dsimp only at h
          cases hp : promptForIdentitySegments segments [] md
              (toIdentitySegmentDefaults selected) rest with
          | error e => rw [hp] at h; exact absurd h (by simp)
          | ok trip =>
            rw [hp] at h
            cases trip with
            | mk sel' rest' =>
              cases rest' with
              | mk o' t' =>
                simp only [Except.ok.injEq, Prod.mk.injEq] at h
                rw [← h.1]
                exact promptForIdentitySegments_slug_invariant segments [] md
                  (toIdentitySegmentDefaults selected) rest sel' o' t' hp
        | none =>
          rw [hf] at h
          dsimp only at h
          cases hp : promptForExistingIdentitySelection existing segments md rest with
          | error e => rw [hp] at h; exact absurd h (by simp)
          | ok trip =>
            rw [hp] at h
            cases trip with
            | mk sel' rest' =>
              cases rest' with
              | mk o' t' =>
                simp only [Except.ok.injEq, Prod.mk.injEq] at h
                rw [← h.1]
                exact ih sel' o' t' hp

lemma resolve_slug_invariant (env : ResolveIdentityEnv) (oracle : PromptOracle)
    (sel : IdentitySelection) (o : PromptOracle) (t : List PromptCall)
    (h : resolveWizardIdentitySelection env oracle = .ok (some sel, o, t)) :
    sel.slug = joinSlug sel.segments := by
  unfold resolveWizardIdentitySelection at h
  dsimp only at h
  repeat' split at h
  all_goals
    first
      | (simp at h; done)
      | (simp only [Except.ok.injEq, Prod.mk.injEq, Option.some.injEq] at h
         obtain ⟨h1, -, -⟩ := h
         subst h1
         first
           | exact parseIdentitySlug_slug_invariant _ _ _ (by assumption)
           | exact buildIdentity_slug_invariant _ _ _ _ _ (by assumption) _
               (by assumption)
           | exact promptForIdentitySegments_slug_invariant _ _ _ _ _ _ _ _
               (by assumption)
           | exact promptForExisting_slug_invariant _ _ _ _ _ _ _ (by assumption))

lemma recoverIdentityFromMetadata_spec (specs : List IdentitySegmentSpec)
    (m : PersistedIdentityMetadata) (sel : IdentitySelection)
    (h : recoverIdentityFromMetadata none specs (some m) = some sel) :
    sel.segments.map (fun s => s.value) = m.segments.map (fun s => s.value) ∧
    (jsTrim m.slug ≠ "" → sel.slug = jsTrim m.slug) ∧
    (jsTrim m.slug = "" → sel.slug = joinSlug sel.segments) := by
  unfold recoverIdentityFromMetadata at h
  by_cases h0 : specs.length = 0
  · rw [if_pos h0] at h; simp at h
  · rw [if_neg h0] at h
    dsimp only at h
    by_cases hlen : m.segments.length = specs.length
    · rw [if_pos hlen] at h
      simp only [Option.some.injEq] at h
      subst h
      refine ⟨by simp, fun hne => ?_, fun heq => ?_⟩
      · dsimp only; rw [if_pos hne]
      · dsimp only [joinSlug]
        rw [if_neg (by simp [heq])]
        simp [List.map_map]
        rfl
    · rw [if_neg hlen] at h; simp at h

/-- **C2 (amended).** The slug/`/`-join invariant holds for every selection
the resolver returns — whether built from CLI overrides and a persisted
fallback, parsed from `--answers-identity`, or produced by the interactive
prompts.  The persisted-snapshot reader, however, trusts the stored
`meta.identity.slug` **verbatim** (it never re-derives it from the stored
segment values), and the metadata-recovery block likewise keeps the stored
slug whenever its trimmed form is non-empty, re-deriving the `/`-join only
when the stored slug trims to the empty string.  Hence selections recovered
from on-disk state satisfy the invariant exactly when the stored slug agrees
with the join of the stored values — which is the case for every file this
system itself wrote, but is not re-checked on read-back. -/
theorem identity_slug_invariant_spec :
    (∀ (env : ResolveIdentityEnv) (oracle : PromptOracle)
        (sel : IdentitySelection) (o : PromptOracle) (t : List PromptCall),
        resolveWizardIdentitySelection env oracle = .ok (some sel, o, t) →
        sel.slug = joinSlug sel.segments) ∧
    (∀ (parsed : JsonValue) (specs : List IdentitySegmentSpec)
        (sel : IdentitySelection),
        readIdentitySelectionSnapshot (some parsed) specs = some sel →
        snapshotStoredSlug parsed = some sel.slug) ∧
    (∀ (specs : List IdentitySegmentSpec) (m : PersistedIdentityMetadata)
        (sel : IdentitySelection),
        recoverIdentityFromMetadata none specs (some m) = some sel →
        sel.segments.map (fun s => s.value) = m.segments.map (fun s => s.value) ∧
        (jsTrim m.slug ≠ "" → sel.slug = jsTrim m.slug) ∧
        (jsTrim m.slug = "" → sel.slug = joinSlug sel.segments)) :=
  ⟨fun env oracle sel o t h => resolve_slug_invariant env oracle sel o t h,
   fun parsed specs sel h => (readSnapshot_slug_verbatim parsed specs sel h).1,
   fun specs m sel h => recoverIdentityFromMetadata_spec specs m sel h⟩

/-- Environment whose slug override resolves via `parseIdentitySlug`. -/
def c2EnvW : ResolveIdentityEnv :=
  { scenarioId := "demo", identitySegments := some [c2Spec],
    providedSlug := some "beta" }

/-- The selection `c2EnvW` resolves to. -/
def c2SelW : IdentitySelection :=
  { slug := "beta",
    segments := [{ id := "cadence", value := "beta", label := "beta",
                   source := .cli }] }

/-- The selection read back from `c2Snapshot`. -/
def c2ReadSel : IdentitySelection :=
  { slug := "alpha",
    segments := [{ id := "cadence", value := "beta", label := "beta",
                   source := .cli }] }

/-- Stored metadata with a padded but non-empty slug, for the C2 witness. -/
def c2Meta : PersistedIdentityMetadata :=
  { slug := "  alpha  ",
    segments := [{ id := "cadence", value := "beta", label := "beta" }] }

/-- The selection `c2Meta` recovers to. -/
def c2RecSel : IdentitySelection :=
  { slug := "alpha",
    segments := [{ id := "cadence", value := "beta", label := "beta",
                   source := .cli }] }

/-- Witness for the amended C2 theorem at concrete inputs: a resolver run
from a slug override, the `c2Snapshot` read-back, and a recovery from stored
metadata whose padded slug is trimmed but otherwise kept verbatim. -/
theorem identity_slug_invariant_spec_witness :
    c2SelW.slug = joinSlug c2SelW.segments ∧
    snapshotStoredSlug c2Snapshot = some c2ReadSel.slug ∧
    c2RecSel.slug = jsTrim c2Meta.slug :=
  ⟨identity_slug_invariant_spec.1 c2EnvW [] c2SelW [] [] rfl,
   identity_slug_invariant_spec.2.1 c2Snapshot [c2Spec] c2ReadSel rfl,
   (identity_slug_invariant_spec.2.2 [c2Spec] c2Meta c2RecSel rfl).2.1
     (by decide)⟩

end DevWizard
